import Mathlib

/-!
Shallow embedding of the gofluent10g host driver (FPGA network tester) and
verification of its specification claims.

The Go sources are embedded as follows: machine integers (`uint32`, `uint64`)
become `Nat` with explicit `% 2 ^ 32` / `% 2 ^ 64` wherever the Go code performs
a narrowing conversion or where wraparound can matter; byte slices become
`List Nat`; code paths that abort the process (`Log(LOG_ERR, ...)`, which calls
`Fatalf`, and Go run-time panics such as out-of-range slice expressions) are
modelled as explicit error results (`Option`/dedicated result types).  DMA
transfers move bytes between host and device; their payloads are irrelevant to
every claim below, so a DMA transfer is modelled by its effect on the driver
state (pointers, counters, capture write offset) only.
-/

namespace Gofluent10g

set_option maxRecDepth 8000

/-! ### Global constants (defines.go) -/

/-- SFP+ clock domain frequency, `FREQ_SFP = 156.25e6` (exact as a rational). -/
def FREQ_SFP : ℚ := 156250000

/-- Number of network interfaces. -/
def N_INTERFACES : Nat := 4

/-- Default number of clock cycles between two timestamp counter increments. -/
def TIMESTAMP_CNTR_CYCLES_PER_TICK_DEFAULT : Int := 1

/-- Maximum size of a ring buffer write (64 MiB). -/
def RING_BUFF_WR_TRANSFER_SIZE_MAX : Nat := 64 * 1024 * 1024

/-- Minimum size of a ring buffer read (64 MiB). -/
def RING_BUFF_RD_TRANSFER_SIZE_MIN : Nat := 64 * 1024 * 1024

/-- Default host memory reserved for capture data per interface (4 GiB). -/
def CAPTURE_HOST_MEM_SIZE_DEFAULT : Nat := 4 * 1024 * 1024 * 1024

/-- DRAM bank A base address. -/
def ADDR_DDR_A : Nat := 0x000000000

/-- DRAM bank B base address. -/
def ADDR_DDR_B : Nat := 0x100000000

/-- DRAM bank A address range (size − 1). -/
def ADDR_RANGE_DDR_A : Nat := 0xFFFFFFFF

/-- DRAM bank B address range (size − 1). -/
def ADDR_RANGE_DDR_B : Nat := 0xFFFFFFFF

/-! ### Trace (part_002, `Trace`) -/

/-- Network trace bound to a generator.  `data` is the trace byte blob
(one replay), `nRepeats` the replay count.  The `fromFile`, `nPackets` and
`duration` fields play no role in any claim and are omitted. -/
structure Trace where
  data : List Nat
  nRepeats : Nat
deriving DecidableEq, Repr

/-- Size (in bytes) of one replay of the trace (`trace.size` field, which the
Go constructors always set to `len(trace.data)`). -/
def Trace.size (trace : Trace) : Nat := trace.data.length

/-- Go `Trace.GetSize`: total replayed size, `nRepeats * size`. -/
def Trace.GetSize (trace : Trace) : Nat := trace.nRepeats * trace.size

/-- Go `Trace.read(addr uint64, size uint32)`: wrap-aware read of `size` bytes
starting at logical address `addr`.  `none` models a process abort: the
`Log(LOG_ERR, ...)` call when `addr` exceeds the replayed trace size, or a Go
run-time panic when one of the slice expressions
(`trace.data[0:size2]`, `data[0:size1]`, `data[size1:]`,
`trace.data[a:a+size]`) is out of range.  The division `addr / trace.size`
is ℕ-division; the Go code divides by the same `trace.size` and would panic
on a zero-sized trace, a case no claim exercises. -/
def Trace.read (trace : Trace) (addr : Nat) (size : Nat) : Option (List Nat) :=
  if addr > trace.nRepeats * trace.size then
    none
  else if addr / trace.size ≠ ((addr + size + (2 ^ 64 - 1)) % 2 ^ 64) / trace.size then
    -- read extends across the wrap-around boundary
    let size1 := (trace.size - addr % trace.size) % 2 ^ 32
    let size2 := (size + 2 ^ 32 - size1) % 2 ^ 32
    if size1 ≤ size ∧ addr % trace.size + size1 ≤ trace.data.length
        ∧ size2 ≤ trace.data.length then
      some ((trace.data.drop (addr % trace.size)).take size1 ++ trace.data.take size2)
    else
      none
  else
    if addr % trace.size + size ≤ trace.data.length then
      some ((trace.data.drop (addr % trace.size)).take size)
    else
      none

/-! ### Generator (part_001, `Generator`) -/

/-- Trace replay engine state for one interface.  The `nt`/`id` back-references
and the hardware registers behind them are not part of the embedded state; the
device-side read pointer is an input of `writeRingBuff`. -/
structure Generator where
  trace : Option Trace
  nBytesTransfered : Nat
  ringBuffAddrRange : Nat
  ringBuffWrPtr : Nat
deriving DecidableEq, Repr

/-- Result of one `Generator.writeRingBuff` step: `ok gen' n` returns `n`
transferred bytes and the updated generator, `fatal` models a process abort
raised before the ring pointer update (here: a failing `trace.read`), and
`overshoot` models the `panic("should not happen!")` branch taken when the
write pointer would pass the end of the ring. -/
inductive GenWriteResult where
  | ok (gen : Generator) (nBytes : Nat)
  | fatal
  | overshoot
deriving DecidableEq, Repr

/-- Number of bytes a `GenWriteResult` reports as transferred (`none` when the
call aborted instead of returning). -/
def GenWriteResult.returnedBytes : GenWriteResult → Option Nat
  | .ok _ n => some n
  | .fatal => none
  | .overshoot => none

/-- Go `Generator.writeRingBuff`: one TX-ring refill granule.
`ringBuffRdPtr` is the device-side read pointer just read from the
`CTRL_ADDR_RD` register.  The `uint64` subtraction `traceSize -
gen.nBytesTransfered` cannot underflow along reachable states (the counter
only grows by amounts bounded by the outstanding byte count), so ℕ subtraction
is faithful there; the narrowing `uint32(...)` conversions are kept as
`% 2 ^ 32`.  The DMA write itself is modelled as succeeding (a failing DMA is
an external fatal error outside every claim). -/
def Generator.writeRingBuff (gen : Generator) (ringBuffRdPtr : Nat) : GenWriteResult :=
  match gen.trace with
  | none => .ok gen 0
  | some trace =>
    let traceSize := trace.GetSize
    let traceSizeOutStanding := traceSize - gen.nBytesTransfered
    if traceSizeOutStanding = 0 then .ok gen 0
    else
      let ringBuffSize := gen.ringBuffAddrRange + 1
      let ringBuffWrPtr := gen.ringBuffWrPtr
      let ringBuffSizeEnd := ringBuffSize - ringBuffWrPtr
      let transferSize0 :=
        if traceSizeOutStanding ≤ RING_BUFF_WR_TRANSFER_SIZE_MAX then
          traceSizeOutStanding % 2 ^ 32
        else RING_BUFF_WR_TRANSFER_SIZE_MAX
      let transferSize :=
        if ringBuffSizeEnd ≤ transferSize0 then ringBuffSizeEnd % 2 ^ 32
        else transferSize0
      let doTransfer : Bool :=
        if ringBuffRdPtr = ringBuffWrPtr then
          true
        else if ringBuffRdPtr < ringBuffWrPtr then
          decide (ringBuffRdPtr ≠ 0 ∨ ringBuffWrPtr + transferSize ≠ ringBuffSize)
        else
          decide (ringBuffRdPtr - ringBuffWrPtr > transferSize)
      if doTransfer = false then .ok gen 0
      else
        match trace.read (traceSize - traceSizeOutStanding) transferSize with
        | none => .fatal
        | some _ =>
          if ringBuffWrPtr + transferSize = ringBuffSize then
            .ok { gen with ringBuffWrPtr := 0,
                           nBytesTransfered := gen.nBytesTransfered + transferSize }
              transferSize
          else if ringBuffWrPtr + transferSize > ringBuffSize then
            .overshoot
          else
            .ok { gen with ringBuffWrPtr := ringBuffWrPtr + transferSize,
                           nBytesTransfered := gen.nBytesTransfered + transferSize }
              transferSize

/-! ### Little-endian byte words -/

/-- Value of a little-endian byte list (`binary.LittleEndian` semantics):
`leVal [b0, b1, ...] = b0 + 256 * (b1 + ...)`. -/
def leVal : List Nat → Nat
  | [] => 0
  | b :: bs => b + 256 * leVal bs

/-- Little-endian byte encoding of `n` on `k` bytes. -/
def leBytes : Nat → Nat → List Nat
  | 0, _ => []
  | k + 1, n => n % 256 :: leBytes k (n / 256)

/-- Go `binary.LittleEndian.Uint64(data[pos : pos+8])`.  The Go slice
expression panics when fewer than 8 bytes are available; every caller below
guards that bound explicitly, matching the source's in-bounds behaviour. -/
def readU64LE (data : List Nat) (pos : Nat) : Nat :=
  leVal ((data.drop pos).take 8)

/-! ### Capture buffer and packet codec (capture.go) -/

/-- Go `CapturePacket` (capture.go flavour: `LenWire`). -/
structure CapturePacket where
  ArrivalTime : ℚ
  HasLatency : Bool
  Latency : ℚ
  LenWire : Nat
  Data : List Nat
deriving DecidableEq, Repr

/-- Go `CapturePackets`. -/
def CapturePackets := List CapturePacket

/-- Go `Capture` struct of capture.go: `data` is the backing byte store
(zero-initialized by `make`), `size` the total number of fetched bytes,
`posWr` the host write offset, `discard` the discard flag,
`tickPeriodLatency` the latency tick period in seconds and `maxLenCapture`
the per-packet capture cap. -/
structure CaptureGo where
  data : List Nat
  size : Nat
  posWr : Nat
  discard : Bool
  tickPeriodLatency : ℚ
  maxLenCapture : Nat
deriving DecidableEq, Repr

/-- Offset of the next packet record: 8-byte meta word plus the capture data
aligned to 8-byte boundaries (shared verbatim by both `GetPackets`
implementations in the repository). -/
def nextPos (posRd lenCapture : Nat) : Nat :=
  if lenCapture % 8 = 0 then posRd + 8 + lenCapture
  else posRd + 16 + lenCapture - lenCapture % 8

theorem nextPos_lt (posRd lenCapture : Nat) : posRd < nextPos posRd lenCapture := by
  unfold nextPos
  have h := Nat.mod_lt lenCapture (show 0 < 8 by norm_num)
  split <;> omega

/-- Result of `Capture.GetPackets` (capture.go): `ok` with the decoded list,
`discardErr` when the fatal "data has been discarded" log fires, `oobPanic`
when a slice expression inside the loop is out of range. -/
inductive CaptureGetResult where
  | ok (pkts : List CapturePacket)
  | discardErr
  | oobPanic
deriving DecidableEq, Repr

/-- Decode loop of capture.go's `Capture.GetPackets`.  Mirrors the Go
`for` loop: the meta word at `posRd` is read *before* any bound check; after a
record is decoded the loop exits when the new read offset has reached
`posWr`.  `none` models the Go panic when `data[posRd:posRd+8]` or the payload
slice is out of range. -/
def CaptureGo.getPacketsLoop (capture : CaptureGo) (posRd : Nat) :
    Option (List CapturePacket) :=
  if posRd + 8 ≤ capture.data.length then
    let meta := readU64LE capture.data posRd
    if meta = 0xFFFFFFFFFFFFFFFF then
      some []
    else
      let hasLatency : Bool := (meta >>> 24) &&& 0x1 == 0x1
      let latency : ℚ :=
        if hasLatency then ((meta &&& 0xFFFFFF : Nat) : ℚ) * capture.tickPeriodLatency
        else 0
      let arrivalTime : ℚ := (((meta >>> 25) &&& 0xFFFFFFF : Nat) : ℚ) / FREQ_SFP
      let lenWire : Nat := (meta >>> 53) &&& 0x7FF
      let lenCapture : Nat :=
        if lenWire > capture.maxLenCapture then capture.maxLenCapture else lenWire
      if posRd + 8 + lenCapture ≤ capture.data.length then
        let pkt : CapturePacket :=
          { ArrivalTime := arrivalTime, HasLatency := hasLatency, Latency := latency,
            LenWire := lenWire,
            Data := (capture.data.drop (posRd + 8)).take lenCapture }
        if h : nextPos posRd lenCapture < capture.posWr then
          match capture.getPacketsLoop (nextPos posRd lenCapture) with
          | some rest => some (pkt :: rest)
          | none => none
        else
          some [pkt]
      else
        none
  else
    none
termination_by capture.posWr - posRd
decreasing_by
  exact Nat.sub_lt_sub_left (lt_trans (nextPos_lt _ _) h) (nextPos_lt _ _)

/-- Go `Capture.GetPackets` (capture.go): fatal error in discard mode,
otherwise decode the backing store from offset 0. -/
def CaptureGo.GetPackets (capture : CaptureGo) : CaptureGetResult :=
  if capture.discard then .discardErr
  else
    match capture.getPacketsLoop 0 with
    | some pkts => .ok pkts
    | none => .oobPanic

/-- Go `Capture.GetSize` (capture.go). -/
def CaptureGo.GetSize (capture : CaptureGo) : Nat := capture.size

/-- Go `captureCreate` (capture.go).  `make([]byte, n)` zero-initializes. -/
def captureCreate (memSize : Nat) (tickPeriodLatency : ℚ) (maxLenCapture : Nat)
    (discard : Bool) : CaptureGo :=
  { data := if discard = false then List.replicate memSize 0
            else List.replicate RING_BUFF_RD_TRANSFER_SIZE_MIN 0,
    size := 0, posWr := 0, discard := discard,
    tickPeriodLatency := tickPeriodLatency, maxLenCapture := maxLenCapture }

/-- Go `Capture.getWriteSlice` (capture.go): reserves `size` bytes at the
current write offset for the next C2H DMA transfer.  `none` models the Go
panic when `capture.data[capture.posWr : capture.posWr+size]` is out of
range.  The returned slice receives device data via DMA; only the state
update matters to the claims, so the slice itself is not returned. -/
def CaptureGo.getWriteSlice (capture : CaptureGo) (size : Nat) : Option CaptureGo :=
  if capture.posWr + size ≤ capture.data.length then
    some { capture with
           posWr := if capture.discard = false then capture.posWr + size
                    else capture.posWr,
           size := capture.size + size }
  else
    none

/-! ### Receiver (part_001, `Receiver`) -/

/-- Capture engine state for one interface.  Only the fields read or written
by `readRingBuff` are embedded; the device-side write pointer is an input. -/
structure Receiver where
  captureEnable : Bool
  capture : CaptureGo
  ringBuffAddrRange : Nat
  ringBuffRdPtr : Nat
deriving DecidableEq, Repr

/-- Result of one `Receiver.readRingBuff` step, mirroring `GenWriteResult`:
`fatal` is an abort before the ring pointer update (here: an out-of-range
capture write slice), `overshoot` the `panic("should not happen")` branch. -/
inductive RecvReadResult where
  | ok (recv : Receiver) (nBytes : Nat)
  | fatal
  | overshoot
deriving DecidableEq, Repr

/-- Number of bytes a `RecvReadResult` reports as transferred. -/
def RecvReadResult.returnedBytes : RecvReadResult → Option Nat
  | .ok _ n => some n
  | .fatal => none
  | .overshoot => none

/-- Go `Receiver.readRingBuff(readAll bool)`: one RX-ring drain granule.
`ringBuffWrPtr` is the device-side write pointer just read from the
`CTRL_ADDR_WR` register.  Narrowing `uint32(...)` conversions are kept as
`% 2 ^ 32`; the C2H DMA read is modelled by the capture-state update of
`getWriteSlice`. -/
def Receiver.readRingBuff (recv : Receiver) (readAll : Bool) (ringBuffWrPtr : Nat) :
    RecvReadResult :=
  if recv.captureEnable = false then .ok recv 0
  else
    let ringBuffSize := recv.ringBuffAddrRange + 1
    let ringBuffRdPtr := recv.ringBuffRdPtr
    let ringBuffSizeEnd := ringBuffSize - ringBuffRdPtr
    let transferSize0 :=
      if ringBuffSizeEnd ≤ RING_BUFF_RD_TRANSFER_SIZE_MIN then ringBuffSizeEnd % 2 ^ 32
      else RING_BUFF_RD_TRANSFER_SIZE_MIN
    let transferSize :=
      if readAll then
        if ringBuffRdPtr < ringBuffWrPtr then ringBuffWrPtr - ringBuffRdPtr
        else if ringBuffRdPtr > ringBuffWrPtr then ringBuffSizeEnd % 2 ^ 32
        else transferSize0
      else transferSize0
    let doTransfer : Bool :=
      if ringBuffRdPtr = ringBuffWrPtr then false
      else if ringBuffRdPtr < ringBuffWrPtr then
        decide (ringBuffWrPtr - ringBuffRdPtr ≥ transferSize)
      else true
    if doTransfer = false then .ok recv 0
    else
      match recv.capture.getWriteSlice transferSize with
      | none => .fatal
      | some capture' =>
        if ringBuffRdPtr + transferSize = ringBuffSize then
          .ok { recv with capture := capture', ringBuffRdPtr := 0 } transferSize
        else if ringBuffRdPtr + transferSize > ringBuffSize then
          .overshoot
        else
          .ok { recv with capture := capture',
                          ringBuffRdPtr := ringBuffRdPtr + transferSize } transferSize

/-! ### Capture buffer and packet codec (part_002 variant)

The repository also carries a second revision of the `Capture` struct and its
`GetPackets` (src/unnamed/part_002).  It differs from capture.go: the loop
bound `posRd < capture.wrPtr` is checked *before* reading a meta word, a
constant `LATENCY_ERR_CORRECTION_CYCLES / FREQ_SFP` is subtracted from every
extracted latency, and there is no discard-mode check. -/

/-- Go `Capture` struct of part_002 (`wrPtr`, `caplen` fields). -/
structure CaptureV2 where
  data : List Nat
  wrPtr : Nat
  tickPeriodLatency : ℚ
  caplen : Nat
  discard : Bool
deriving DecidableEq, Repr

/-- Decode loop of part_002's `Capture.GetPackets`.  The parameter
`latencyErrCorrectionCycles` is modelled from the spec: the constant
`LATENCY_ERR_CORRECTION_CYCLES` referenced on part_002 line 293 is not defined
anywhere under src/, and the spec fixes no numeric value (it only says the
correction subtracts "a small constant (in cycles) accounting for MAC/PHY
latency of the tester itself, divided by `F_SFP`"), so the constant is taken
as an explicit parameter.  `none` models the Go panic when a slice expression
is out of range. -/
def CaptureV2.getPacketsLoop (latencyErrCorrectionCycles : Nat) (capture : CaptureV2)
    (posRd : Nat) : Option (List CapturePacket) :=
  if h : posRd < capture.wrPtr then
    if posRd + 8 ≤ capture.data.length then
      let meta := readU64LE capture.data posRd
      if meta = 0xFFFFFFFFFFFFFFFF then
        some []
      else
        let hasLatency : Bool := (meta >>> 24) &&& 0x1 == 0x1
        let latency : ℚ :=
          if hasLatency then
            ((meta &&& 0xFFFFFF : Nat) : ℚ) * capture.tickPeriodLatency
              - (latencyErrCorrectionCycles : ℚ) / FREQ_SFP
          else 0
        let arrivalTime : ℚ := (((meta >>> 25) &&& 0xFFFFFFF : Nat) : ℚ) / FREQ_SFP
        let wirelen : Nat := (meta >>> 53) &&& 0x7FF
        let caplen : Nat := if wirelen > capture.caplen then capture.caplen else wirelen
        if posRd + 8 + caplen ≤ capture.data.length then
          let pkt : CapturePacket :=
            { ArrivalTime := arrivalTime, HasLatency := hasLatency, Latency := latency,
              LenWire := wirelen,
              Data := (capture.data.drop (posRd + 8)).take caplen }
          match CaptureV2.getPacketsLoop latencyErrCorrectionCycles capture
              (nextPos posRd caplen) with
          | some rest => some (pkt :: rest)
          | none => none
        else
          none
    else
      none
  else
    some []
termination_by capture.wrPtr - posRd
decreasing_by
  exact Nat.sub_lt_sub_left h (nextPos_lt _ _)

/-- Go `Capture.GetPackets` (part_002): decode from offset 0; the loop guard
`posRd < capture.wrPtr` is at the loop head and there is no discard check. -/
def CaptureV2.GetPackets (latencyErrCorrectionCycles : Nat) (capture : CaptureV2) :
    Option (List CapturePacket) :=
  CaptureV2.getPacketsLoop latencyErrCorrectionCycles capture 0

/-- Instrumentation of `CaptureV2.getPacketsLoop`: the list of offsets at
which the loop starts decoding a packet record (reads a non-sentinel meta
word).  The control flow is identical to the decode loop; the latency
correction constant does not influence control flow and is omitted. -/
def CaptureV2.metaOffsets (capture : CaptureV2) (posRd : Nat) : List Nat :=
  if h : posRd < capture.wrPtr then
    if posRd + 8 ≤ capture.data.length then
      let meta := readU64LE capture.data posRd
      if meta = 0xFFFFFFFFFFFFFFFF then
        []
      else
        let wirelen : Nat := (meta >>> 53) &&& 0x7FF
        let caplen : Nat := if wirelen > capture.caplen then capture.caplen else wirelen
        if posRd + 8 + caplen ≤ capture.data.length then
          posRd :: CaptureV2.metaOffsets capture (nextPos posRd caplen)
        else
          [posRd]
    else
      []
  else
    []
termination_by capture.wrPtr - posRd
decreasing_by
  exact Nat.sub_lt_sub_left h (nextPos_lt _ _)

/-! ### Timestamp unit (timestamp.go) -/

/-- Go `timestamp` struct. -/
structure timestamp where
  cyclesPerTick : Int
  mode : Int
  pos : Int
  width : Int
deriving DecidableEq, Repr

/-- Timestamp mode constants (timestamp.go). -/
def TimestampModeDisabled : Int := 0

/-- FixedPos timestamp mode. -/
def TimestampModeFixedPos : Int := 1

/-- Header timestamp mode. -/
def TimestampModeHeader : Int := 2

/-- Go `timestamp.getTickPeriod`: period in seconds between two latency
counter increments, `cyclesPerTick / FREQ_SFP`. -/
def timestamp.getTickPeriod (ts : timestamp) : ℚ :=
  (ts.cyclesPerTick : ℚ) / FREQ_SFP

/-- Go `timestamp.setMode`: `Log(LOG_ERR, ...)` (process abort, modelled as
`none`) for every mode other than `TimestampModeFixedPos` and
`TimestampModeHeader`; otherwise stores the mode. -/
def timestamp.setMode (ts : timestamp) (mode : Int) : Option timestamp :=
  if mode ≠ TimestampModeFixedPos ∧ mode ≠ TimestampModeHeader then none
  else some { ts with mode := mode }

/-- Projection of the `NetworkTester` struct relevant to the timestamp
claims: the embedded timestamp core. -/
structure NetworkTester where
  timestamp : timestamp
deriving DecidableEq, Repr

/-- Go `NetworkTester.SetTimestampMode`: delegates to `timestamp.setMode`. -/
def NetworkTester.SetTimestampMode (nt : NetworkTester) (mode : Int) :
    Option NetworkTester :=
  (nt.timestamp.setMode mode).map fun ts => { nt with timestamp := ts }

/-- Timestamp core installed by Go `NetworkTesterCreate`: default tick period,
mode `TimestampModeDisabled`, zero-valued `pos` and `width`. -/
def NetworkTesterCreate_timestamp : timestamp :=
  { cyclesPerTick := TIMESTAMP_CNTR_CYCLES_PER_TICK_DEFAULT,
    mode := TimestampModeDisabled, pos := 0, width := 0 }

/-! ### Device-DRAM region assignment (part_005, `NetworkTester.assignMemory`) -/

/-- One gibibyte. -/
def GIBYTE : Nat := 1024 * 1024 * 1024

/-- Device-DRAM region: base address and range (`size = range + 1`). -/
structure MemRegion where
  addr : Nat
  range : Nat
deriving DecidableEq, Repr

/-- Size in bytes of a memory region. -/
def MemRegion.size (r : MemRegion) : Nat := r.range + 1

/-- Go `NetworkTester.assignMemory`, as a function of the number of
generators bound to a trace and the number of receivers armed for capture.
The source writes `(ringBuffAddr, ringBuffAddrRange)` into
`nt.gens[genIds[i]]` / `nt.recvs[recvIds[i]]`; the region assigned to the
i-th configured generator (receiver) depends only on `i`, `nGens` and
`nRecvs`, so the result is returned as two lists ordered by configured
interface id.  The guard on the `ADDR_DDR_*` constants in the source passes
for the values in defines.go and is omitted.  For counts outside 0..4 — which
`N_INTERFACES = 4` makes unreachable — the source's `if` chain assigns
nothing, matching the empty lists returned here. -/
def assignMemory (nGens nRecvs : Nat) : List MemRegion × List MemRegion :=
  let halfA : Nat := (ADDR_RANGE_DDR_A + 1) / 2
  let halfB : Nat := (ADDR_RANGE_DDR_B + 1) / 2
  if nGens = 0 ∧ nRecvs = 0 then
    ([], [])
  else if nRecvs = 0 then
    (if nGens = 1 then
       [⟨ADDR_DDR_A, ADDR_RANGE_DDR_A⟩]
     else if nGens = 2 then
       [⟨ADDR_DDR_A, ADDR_RANGE_DDR_A⟩, ⟨ADDR_DDR_B, ADDR_RANGE_DDR_B⟩]
     else if nGens = 3 then
       [⟨ADDR_DDR_A, halfA - 1⟩, ⟨ADDR_DDR_A + halfA, halfA - 1⟩,
        ⟨ADDR_DDR_B, ADDR_RANGE_DDR_B⟩]
     else if nGens = 4 then
       [⟨ADDR_DDR_A, halfA - 1⟩, ⟨ADDR_DDR_A + halfA, halfA - 1⟩,
        ⟨ADDR_DDR_B, halfB - 1⟩, ⟨ADDR_DDR_B + halfB, halfB - 1⟩]
     else [],
     [])
  else if nGens = 0 then
    ([],
     if nRecvs = 1 then
       [⟨ADDR_DDR_A, ADDR_RANGE_DDR_A⟩]
     else if nRecvs = 2 then
       [⟨ADDR_DDR_A, ADDR_RANGE_DDR_A⟩, ⟨ADDR_DDR_B, ADDR_RANGE_DDR_B⟩]
     else if nRecvs = 3 then
       [⟨ADDR_DDR_A, halfA - 1⟩, ⟨ADDR_DDR_A + halfA, halfA - 1⟩,
        ⟨ADDR_DDR_B, ADDR_RANGE_DDR_B⟩]
     else if nRecvs = 4 then
       [⟨ADDR_DDR_A, halfA - 1⟩, ⟨ADDR_DDR_A + halfA, halfA - 1⟩,
        ⟨ADDR_DDR_B, halfB - 1⟩, ⟨ADDR_DDR_B + halfB, halfB - 1⟩]
     else [])
  else if nGens = 1 ∧ nRecvs = 1 then
    ([⟨ADDR_DDR_A, ADDR_RANGE_DDR_A⟩], [⟨ADDR_DDR_B, ADDR_RANGE_DDR_B⟩])
  else
    ((List.range nGens).map fun i => ⟨ADDR_DDR_A + i * GIBYTE, GIBYTE - 1⟩,
     (List.range nRecvs).map fun i => ⟨ADDR_DDR_B + i * GIBYTE, GIBYTE - 1⟩)

/-! ### Spec-side capture stream encoder (§4.4 wire layout)

These definitions follow the spec's words, not the source: they describe the
byte stream the capture hardware produces, against which the decoders are
checked (round-trip claims C5 and C7). -/

/-- One captured packet as the hardware sees it: latency counter ticks
(24 bits), latency-present flag, inter-arrival clock cycles (28 bits), wire
length (11 bits, 0..1518) and the on-wire payload bytes. -/
structure PacketSpec where
  latencyTicks : Nat
  hasLatency : Bool
  cycles : Nat
  wirelen : Nat
  payload : List Nat
deriving DecidableEq, Repr

/-- Meta word of a packet per the §4.4 bit layout: bits 0..23 latency ticks,
bit 24 has_latency, bits 25..52 inter-arrival cycles, bits 53..63 wire
length. -/
def PacketSpec.meta (p : PacketSpec) : Nat :=
  p.latencyTicks + (if p.hasLatency then 2 ^ 24 else 0)
    + p.cycles * 2 ^ 25 + p.wirelen * 2 ^ 53

/-- Field bounds of a well-formed captured packet (per §4.4: 24-bit latency,
28-bit inter-arrival time, wire length at most 1518 bytes, payload of
exactly `wirelen` bytes). -/
def PacketSpec.Wf (p : PacketSpec) : Prop :=
  p.latencyTicks < 2 ^ 24 ∧ p.cycles < 2 ^ 28 ∧ p.wirelen ≤ 1518
    ∧ p.payload.length = p.wirelen

/-- Capture length of a packet: `caplen = min(wirelen, max_caplen)`. -/
def specCaplen (maxCaplen : Nat) (p : PacketSpec) : Nat := min p.wirelen maxCaplen

/-- Encoded record of one packet: little-endian meta word, `caplen` payload
bytes, zero padding to the next 8-byte boundary. -/
def specEncodeRecord (maxCaplen : Nat) (p : PacketSpec) : List Nat :=
  leBytes 8 p.meta ++ p.payload.take (specCaplen maxCaplen p)
    ++ List.replicate ((8 - specCaplen maxCaplen p % 8) % 8) 0

/-- Encoded capture stream of a packet sequence, terminated by the sentinel
word `0xFFFFFFFFFFFFFFFF`. -/
def specEncodeStream (maxCaplen : Nat) : List PacketSpec → List Nat
  | [] => leBytes 8 0xFFFFFFFFFFFFFFFF
  | p :: ps => specEncodeRecord maxCaplen p ++ specEncodeStream maxCaplen ps

/-- Packet that capture.go's decoder produces for an encoded `PacketSpec`
(no latency correction term). -/
def specDecodedGo (maxCaplen : Nat) (tickPeriod : ℚ) (p : PacketSpec) : CapturePacket :=
  { ArrivalTime := (p.cycles : ℚ) / FREQ_SFP,
    HasLatency := p.hasLatency,
    Latency := if p.hasLatency then (p.latencyTicks : ℚ) * tickPeriod else 0,
    LenWire := p.wirelen,
    Data := p.payload.take (specCaplen maxCaplen p) }

/-- Packet that part_002's decoder produces for an encoded `PacketSpec`
(latency corrected by `latencyErrCorrectionCycles / FREQ_SFP`). -/
def specDecodedV2 (latencyErrCorrectionCycles maxCaplen : Nat) (tickPeriod : ℚ)
    (p : PacketSpec) : CapturePacket :=
  { ArrivalTime := (p.cycles : ℚ) / FREQ_SFP,
    HasLatency := p.hasLatency,
    Latency := if p.hasLatency then
        (p.latencyTicks : ℚ) * tickPeriod - (latencyErrCorrectionCycles : ℚ) / FREQ_SFP
      else 0,
    LenWire := p.wirelen,
    Data := p.payload.take (specCaplen maxCaplen p) }

/-! ### Memory assignment coverage property (claim C9) -/

/-- Coverage property of one `(nGens, nRecvs)` combination: every configured
generator and receiver gets a region; all assigned regions are pairwise
disjoint; every region size is a multiple of 16384, strictly larger than
`R_MIN` and `W_MAX`, and lies wholly within bank A `[0, 2^32)` or wholly
within bank B `[2^32, 2^33)`; the `(1,1)` case gives the generator all of A
and the receiver all of B; every other mixed case hands out 1 GiB slices in
configured-id order. -/
def memAssignmentOK (nGens nRecvs : Nat) : Prop :=
  let gs := (assignMemory nGens nRecvs).1
  let rs := (assignMemory nGens nRecvs).2
  gs.length = nGens ∧ rs.length = nRecvs
  ∧ (gs ++ rs).Pairwise (fun r s => r.addr + r.range < s.addr ∨ s.addr + s.range < r.addr)
  ∧ (∀ r ∈ gs ++ rs,
      r.size % 16384 = 0
      ∧ RING_BUFF_RD_TRANSFER_SIZE_MIN < r.size
      ∧ RING_BUFF_WR_TRANSFER_SIZE_MAX < r.size
      ∧ (r.addr + r.range < 2 ^ 32 ∨ (2 ^ 32 ≤ r.addr ∧ r.addr + r.range < 2 ^ 33)))
  ∧ (nGens = 1 → nRecvs = 1 →
      gs = [⟨ADDR_DDR_A, ADDR_RANGE_DDR_A⟩] ∧ rs = [⟨ADDR_DDR_B, ADDR_RANGE_DDR_B⟩])
  ∧ (1 ≤ nGens → 1 ≤ nRecvs → ¬(nGens = 1 ∧ nRecvs = 1) →
      gs = (List.range nGens).map (fun i => ⟨ADDR_DDR_A + i * GIBYTE, GIBYTE - 1⟩)
      ∧ rs = (List.range nRecvs).map (fun i => ⟨ADDR_DDR_B + i * GIBYTE, GIBYTE - 1⟩))

instance memAssignmentOK.dec (nGens nRecvs : Nat) : Decidable (memAssignmentOK nGens nRecvs) := by
  unfold memAssignmentOK
  exact inferInstance

/-- C9 (memory assignment coverage): for every combination of `n_gen` traced
generators and `n_recv` armed receivers in `{0..4}²`, `assignMemory` assigns
each of them a `(base, range)` region; the regions are pairwise disjoint;
each region's size (`range + 1`) is a multiple of 16384 and strictly greater
than `R_MIN` and `W_MAX`; each region lies wholly within bank A `[0, 2^32)`
or bank B `[2^32, 2^33)`; in the case `(1,1)` the generator gets all of bank
A and the receiver all of bank B, and in every other mixed case each
generator gets a 1 GiB slice of A and each receiver a 1 GiB slice of B in
order of configured id. -/
theorem assignMemory_coverage : ∀ nGens < 5, ∀ nRecvs < 5, memAssignmentOK nGens nRecvs := by
  decide

/-- Witness for C9: the combination of 2 traced generators and 3 armed
receivers is covered. -/
theorem assignMemory_coverage_witness : 2 < 5 ∧ 3 < 5 ∧ memAssignmentOK 2 3 :=
  ⟨by norm_num, by norm_num, assignMemory_coverage 2 (by norm_num) 3 (by norm_num)⟩

/-! ### Timestamp mode setter (claim C10) -/

/-- C10 (implicit): the timestamp mode setter rejects the Disabled mode —
`timestamp.setMode` (and hence `NetworkTester.SetTimestampMode`) raises a
fatal error for every argument other than `TimestampModeFixedPos` and
`TimestampModeHeader`; `TimestampModeDisabled` is the initial default
installed by `NetworkTesterCreate`, yet selecting it through the setter
always aborts, so a caller can never select Disabled once the mode has been
changed. -/
theorem setMode_rejects_disabled (ts : timestamp) (nt : NetworkTester) (mode : Int) :
    ((ts.setMode mode).isSome ↔ (mode = TimestampModeFixedPos ∨ mode = TimestampModeHeader))
    ∧ ((nt.SetTimestampMode mode).isSome ↔
        (mode = TimestampModeFixedPos ∨ mode = TimestampModeHeader))
    ∧ ts.setMode TimestampModeDisabled = none
    ∧ NetworkTesterCreate_timestamp.mode = TimestampModeDisabled := by
  refine ⟨?_, ?_, ?_, rfl⟩
  · unfold timestamp.setMode
    split <;> simp_all <;> tauto
  · unfold NetworkTester.SetTimestampMode timestamp.setMode
    split <;> simp_all <;> tauto
  · unfold timestamp.setMode
    simp [TimestampModeDisabled, TimestampModeFixedPos, TimestampModeHeader]

/-! ### Claim C8: discard-mode prohibition -/

/-- C8 (discard-mode prohibition): for every Capture created with discard set
to true, calling `GetPackets` (capture.go) raises the fatal "data has been
discarded" error, and no packet list is computed from the overwritten scratch
bytes; for a Capture with discard false, `GetPackets` does not raise this
error. -/
theorem getPackets_discard_prohibition (capture : CaptureGo)
    (memSize maxLenCapture : Nat) (tickPeriodLatency : ℚ) :
    (capture.GetPackets = .discardErr ↔ capture.discard = true)
    ∧ (captureCreate memSize tickPeriodLatency maxLenCapture true).GetPackets
        = .discardErr := by
  constructor
  · unfold CaptureGo.GetPackets
    cases hd : capture.discard
    · simp only [hd, Bool.false_eq_true, if_false, iff_false]
      cases capture.getPacketsLoop 0 <;> simp
    · simp [hd]
  · rfl

/-! ### Claim C4: trace read round-trip (failing input evaluation) -/

/-- C4 (trace read round-trip, code bug): the claim demands
`trace.read(addr, n)` return the `n` bytes obtained by indexing the data
modulo `L` whenever `addr + n ≤ nRepeats × L`.  The code handles at most one
wrap-around: for the trace with data bytes `0..63` (`L = 64`) replayed
`nRepeats = 3` times, the in-range read `(addr, n) = (0, 192)` computes
`size2 = 128` and evaluates the slice `trace.data[0:128]` on a 64-byte
backing array — a run-time panic (modelled as `none`) instead of the claimed
192 modulo-indexed bytes.  The claim's own example `read(L−1, 2)` crosses
only one boundary and does return `[data[L−1], data[0]]`. -/
theorem trace_read_multiwrap_bug :
    Trace.read ⟨List.range 64, 3⟩ 0 192 = none
    ∧ 0 + 192 ≤ 3 * 64
    ∧ Trace.read ⟨List.range 64, 3⟩ 63 2 = some [63, 0] := by
  refine ⟨?_, by norm_num, ?_⟩ <;> decide

/-! ### Claim C6: decode termination bound -/

set_option maxRecDepth 4000 in
/-- Counterexample for C6: capture.go's `GetPackets` checks the write-offset
bound only *after* decoding a record, so on a capture whose write offset is 0
(nothing drained; zero-initialized backing store of 16 bytes) it decodes one
phantom record from the zero meta word at offset 0 — which begins at an
offset `≥` the write offset — instead of returning the empty packet list the
claim demands. -/
theorem getPackets_posWrZero_not_empty :
    CaptureGo.GetPackets ⟨List.replicate 16 0, 0, 0, false, 0, 0⟩
        = .ok [⟨0, false, 0, 0, []⟩]
    ∧ CaptureGo.GetPackets ⟨List.replicate 16 0, 0, 0, false, 0, 0⟩ ≠ .ok [] := by
  have h : CaptureGo.GetPackets ⟨List.replicate 16 0, 0, 0, false, 0, 0⟩
      = .ok [⟨0, false, 0, 0, []⟩] := by
    unfold CaptureGo.GetPackets
    rw [CaptureGo.getPacketsLoop]
    norm_num [readU64LE, leVal, nextPos]
  exact ⟨h, by rw [h]; decide⟩

set_option maxHeartbeats 1000000 in
/-- Helper: every offset at which part_002's decode loop starts a record lies
in `[posRd, wrPtr)`. -/
theorem metaOffsets_mem (capture : CaptureV2) (posRd : Nat) :
    ∀ o ∈ capture.metaOffsets posRd, posRd ≤ o ∧ o < capture.wrPtr := by
  intro o ho
  rw [CaptureV2.metaOffsets] at ho
  dsimp only at ho
  split at ho
  case isTrue h =>
    split at ho
    case isTrue h8 =>
      split at ho
      case isTrue hsent => simp at ho
      case isFalse hsent =>
        generalize (if readU64LE capture.data posRd >>> 53 &&& 2047 > capture.caplen
            then capture.caplen
            else readU64LE capture.data posRd >>> 53 &&& 2047) = caplen at ho
        split at ho
        case isTrue hcap =>
          rcases List.mem_cons.mp ho with rfl | htail
          · exact ⟨le_rfl, h⟩
          · have hrec := metaOffsets_mem capture _ o htail
            exact ⟨le_trans (Nat.le_of_lt (nextPos_lt posRd _)) hrec.1, hrec.2⟩
        case isFalse hcap =>
          rcases List.mem_singleton.mp ho with rfl
          exact ⟨le_rfl, h⟩
    case isFalse h8 => simp at ho
  case isFalse h => simp at ho
termination_by capture.wrPtr - posRd
decreasing_by
  refine Nat.sub_lt_sub_left ?_ (nextPos_lt _ _)
  omega

/-- Helper: part_002's decode loop and its offset instrumentation proceed in
lockstep — when the loop returns a packet list, its length equals the number
of recorded record offsets. -/
theorem getPacketsLoopV2_length (latencyErrCorrectionCycles : Nat) (capture : CaptureV2)
    (posRd : Nat) (pkts : List CapturePacket)
    (hloop : CaptureV2.getPacketsLoop latencyErrCorrectionCycles capture posRd = some pkts) :
    pkts.length = (capture.metaOffsets posRd).length := by
  rw [CaptureV2.getPacketsLoop] at hloop
  rw [CaptureV2.metaOffsets]
  dsimp only at hloop ⊢
  split at hloop
  case isTrue h =>
    rw [dif_pos h]
    split at hloop
    case isTrue h8 =>
      rw [if_pos h8]
      split at hloop
      case isTrue hsent =>
        rw [if_pos hsent]
        simp only [Option.some.injEq] at hloop
        subst hloop
        rfl
      case isFalse hsent =>
        rw [if_neg hsent]
        generalize (if readU64LE capture.data posRd >>> 53 &&& 2047 > capture.caplen
            then capture.caplen
            else readU64LE capture.data posRd >>> 53 &&& 2047) = caplen at hloop ⊢
        split at hloop
        case isTrue hcap =>
          rw [if_pos hcap]
          split at hloop
          case h_1 rest hrest =>
            simp only [Option.some.injEq] at hloop
            subst hloop
            simpa using getPacketsLoopV2_length latencyErrCorrectionCycles capture _ rest hrest
          case h_2 => exact absurd hloop (by simp)
        case isFalse hcap =>
          rw [if_neg hcap]
          exact absurd hloop (by simp)
    case isFalse h8 => exact absurd hloop (by simp)
  case isFalse h =>
    rw [dif_neg h]
    simp only [Option.some.injEq] at hloop
    subst hloop
    rfl
termination_by capture.wrPtr - posRd
decreasing_by
  refine Nat.sub_lt_sub_left ?_ (nextPos_lt _ _)
  omega

/-- C6 (decode termination bound), amended: part_002's `GetPackets` checks
`posRd < wrPtr` at the loop head, so it stops at the first sentinel meta word
or as soon as the read offset reaches the recorded write offset, never
decodes a record whose meta word begins at or beyond the write offset, and a
Capture whose write offset is 0 decodes to the empty packet list.
(capture.go's variant of `GetPackets` checks the bound only after decoding a
record and therefore violates the claim when the write offset is 0 — see the
counterexample.) -/
theorem v2_decode_termination_bound :
    (∀ (capture : CaptureV2) (posRd : Nat),
        ∀ o ∈ capture.metaOffsets posRd, posRd ≤ o ∧ o < capture.wrPtr)
    ∧ (∀ (latencyErrCorrectionCycles : Nat) (capture : CaptureV2)
          (posRd : Nat) (pkts : List CapturePacket),
        CaptureV2.getPacketsLoop latencyErrCorrectionCycles capture posRd = some pkts →
        pkts.length = (capture.metaOffsets posRd).length)
    ∧ (∀ (latencyErrCorrectionCycles : Nat) (capture : CaptureV2),
        capture.wrPtr = 0 →
        CaptureV2.GetPackets latencyErrCorrectionCycles capture = some []) := by
  refine ⟨metaOffsets_mem, getPacketsLoopV2_length, ?_⟩
  intro corr capture hwr
  rw [CaptureV2.GetPackets, CaptureV2.getPacketsLoop]
  simp [hwr]

/-- Witness for C6 (amended): on a 16-byte all-zero capture with write offset
16, the decode loop starts records at offsets 0 and 8, both below the write
offset; a capture with write offset 0 decodes to the empty list. -/
theorem v2_decode_termination_bound_witness :
    (0 ∈ CaptureV2.metaOffsets ⟨List.replicate 16 0, 16, 0, 0, false⟩ 0
      ∧ (0 : Nat) ≤ 0 ∧ 0 < (16 : Nat))
    ∧ CaptureV2.GetPackets 4 ⟨List.replicate 16 0, 0, 0, 0, false⟩ = some [] := by
  constructor
  · have hm : 0 ∈ CaptureV2.metaOffsets ⟨List.replicate 16 0, 16, 0, 0, false⟩ 0 := by
      rw [CaptureV2.metaOffsets]
      norm_num [readU64LE, leVal]
    have := v2_decode_termination_bound.1 ⟨List.replicate 16 0, 16, 0, 0, false⟩ 0 0 hm
    exact ⟨hm, this⟩
  · exact v2_decode_termination_bound.2.2 4 ⟨List.replicate 16 0, 0, 0, 0, false⟩ rfl

/-! ### Claims C1/C2: generator refill step -/

/-- Transfer size of a refill step as the spec words it:
`min(outstanding, W_MAX)`, clipped further so the transfer does not cross the
end of the ring. -/
def genTransferSize (gen : Generator) (trace : Trace) : Nat :=
  min (min (trace.GetSize - gen.nBytesTransfered) RING_BUFF_WR_TRANSFER_SIZE_MAX)
    (gen.ringBuffAddrRange + 1 - gen.ringBuffWrPtr)

/-- Admissibility of a refill step as the claim words it: (a) ring empty, or
(b) `read_ptr > write_ptr` with strict headroom, or (c) `read_ptr <
write_ptr` unless the write would wrap to 0 while `read_ptr = 0`. -/
def genAdmissible (gen : Generator) (trace : Trace) (ringBuffRdPtr : Nat) : Prop :=
  ringBuffRdPtr = gen.ringBuffWrPtr
  ∨ (ringBuffRdPtr > gen.ringBuffWrPtr
      ∧ ringBuffRdPtr - gen.ringBuffWrPtr > genTransferSize gen trace)
  ∨ (ringBuffRdPtr < gen.ringBuffWrPtr
      ∧ ¬(gen.ringBuffWrPtr + genTransferSize gen trace = gen.ringBuffAddrRange + 1
            ∧ ringBuffRdPtr = 0))

instance genAdmissible.dec (gen : Generator) (trace : Trace) (ringBuffRdPtr : Nat) :
    Decidable (genAdmissible gen trace ringBuffRdPtr) := by
  unfold genAdmissible
  exact inferInstance

/-- Helper: full characterization of one `writeRingBuff` step for a
generator with a bound trace and an in-ring write pointer: nothing happens
once the trace is exhausted; otherwise the step transfers exactly
`genTransferSize` bytes when admissible (and the trace read succeeds),
advancing the write pointer with wrap-around, and returns 0 when
inadmissible. -/
theorem writeRingBuff_spec (gen : Generator) (trace : Trace) (ringBuffRdPtr : Nat)
    (htrace : gen.trace = some trace)
    (hwr : gen.ringBuffWrPtr < gen.ringBuffAddrRange + 1) :
    (trace.GetSize ≤ gen.nBytesTransfered →
        gen.writeRingBuff ringBuffRdPtr = .ok gen 0)
    ∧ (gen.nBytesTransfered < trace.GetSize →
        (¬ genAdmissible gen trace ringBuffRdPtr →
            gen.writeRingBuff ringBuffRdPtr = .ok gen 0)
        ∧ (genAdmissible gen trace ringBuffRdPtr →
            0 < genTransferSize gen trace
            ∧ ((trace.read gen.nBytesTransfered (genTransferSize gen trace)).isSome →
                gen.writeRingBuff ringBuffRdPtr = .ok
                  { gen with
                    ringBuffWrPtr :=
                      if gen.ringBuffWrPtr + genTransferSize gen trace
                          = gen.ringBuffAddrRange + 1
                      then 0
                      else gen.ringBuffWrPtr + genTransferSize gen trace,
                    nBytesTransfered :=
                      gen.nBytesTransfered + genTransferSize gen trace }
                  (genTransferSize gen trace))
            ∧ (trace.read gen.nBytesTransfered (genTransferSize gen trace) = none →
                gen.writeRingBuff ringBuffRdPtr = .fatal))) := by
  have h32 : (2 : Nat) ^ 32 = 4294967296 := by norm_num
  have hWval : RING_BUFF_WR_TRANSFER_SIZE_MAX = 67108864 := by
    norm_num [RING_BUFF_WR_TRANSFER_SIZE_MAX]
  unfold Generator.writeRingBuff
  rw [htrace]
  dsimp only
  by_cases hout : trace.GetSize - gen.nBytesTransfered = 0
  · rw [if_pos hout]
    exact ⟨fun _ => rfl, fun hlt => absurd hout (by omega)⟩
  · rw [if_neg hout]
    have houtstanding : gen.nBytesTransfered < trace.GetSize := by omega
    refine ⟨fun hle => absurd hout (by omega), fun _ => ?_⟩
    have hpos : 0 < genTransferSize gen trace := by
      unfold genTransferSize
      rw [hWval]
      omega
    have haddr : trace.GetSize - (trace.GetSize - gen.nBytesTransfered)
        = gen.nBytesTransfered := by omega
    have hts : (if gen.ringBuffAddrRange + 1 - gen.ringBuffWrPtr
          ≤ (if trace.GetSize - gen.nBytesTransfered ≤ RING_BUFF_WR_TRANSFER_SIZE_MAX
              then (trace.GetSize - gen.nBytesTransfered) % 2 ^ 32
              else RING_BUFF_WR_TRANSFER_SIZE_MAX)
        then (gen.ringBuffAddrRange + 1 - gen.ringBuffWrPtr) % 2 ^ 32
        else (if trace.GetSize - gen.nBytesTransfered ≤ RING_BUFF_WR_TRANSFER_SIZE_MAX
              then (trace.GetSize - gen.nBytesTransfered) % 2 ^ 32
              else RING_BUFF_WR_TRANSFER_SIZE_MAX))
        = genTransferSize gen trace := by
      unfold genTransferSize
      simp only [h32, hWval]
      split_ifs <;> omega
    rw [hts, haddr]
    have hdt : (if ringBuffRdPtr = gen.ringBuffWrPtr then true
        else if ringBuffRdPtr < gen.ringBuffWrPtr
        then decide (ringBuffRdPtr ≠ 0
            ∨ gen.ringBuffWrPtr + genTransferSize gen trace ≠ gen.ringBuffAddrRange + 1)
        else decide (ringBuffRdPtr - gen.ringBuffWrPtr > genTransferSize gen trace))
        = decide (genAdmissible gen trace ringBuffRdPtr) := by
      unfold genAdmissible
      rcases Nat.lt_trichotomy ringBuffRdPtr gen.ringBuffWrPtr with hlt | heq | hgt
      · rw [if_neg (by omega), if_pos hlt, decide_eq_decide]
        have hne : ¬ ringBuffRdPtr = gen.ringBuffWrPtr := by omega
        have hngt : ¬ (ringBuffRdPtr > gen.ringBuffWrPtr
            ∧ ringBuffRdPtr - gen.ringBuffWrPtr > genTransferSize gen trace) := by omega
        constructor
        · intro h
          exact Or.inr (Or.inr ⟨hlt, fun hc => by tauto⟩)
        · rintro (h | h | ⟨-, h⟩)
          · exact absurd h hne
          · exact absurd h hngt
          · by_contra hc
            push_neg at hc
            exact h ⟨hc.2, hc.1⟩
      · rw [if_pos heq]
        simp [genAdmissible, heq]
      · rw [if_neg (by omega), if_neg (by omega), decide_eq_decide]
        constructor
        · intro h
          exact Or.inr (Or.inl ⟨hgt, h⟩)
        · rintro (h | ⟨-, h⟩ | ⟨h, -⟩)
          · omega
          · exact h
          · omega
    rw [hdt]
    constructor
    · intro hnadm
      rw [decide_eq_false hnadm, if_pos rfl]
    · intro hadm
      rw [decide_eq_true hadm, if_neg (by simp)]
      refine ⟨hpos, ?_, ?_⟩
      · intro hread
        rcases hr : trace.read gen.nBytesTransfered (genTransferSize gen trace) with - | v
        · rw [hr] at hread
          simp at hread
        · dsimp only
          have hle : genTransferSize gen trace
              ≤ gen.ringBuffAddrRange + 1 - gen.ringBuffWrPtr := min_le_right _ _
          split_ifs with h1 h2
          · rfl
          · omega
          · rfl
      · intro hread
        rw [hread]

/-- C2 (refill admissibility), amended: for every call to `writeRingBuff`
with a trace bound, outstanding bytes nonzero and a write pointer inside the
ring, with transfer size `min(outstanding, W_MAX)` clipped to the end of the
ring: when none of (a) `read_ptr == write_ptr`, (b) `read_ptr > write_ptr`
with `read_ptr − write_ptr > transfer_size` (strict), (c) `read_ptr <
write_ptr` and not (wrap-to-0 while `read_ptr == 0`) holds, the function
returns 0 and leaves the state unchanged; when one of them holds, the
transfer size is positive and the DMA transfer is performed — *provided the
trace read of the transfer window succeeds*; if that read faults (the window
spans more than one trace wrap boundary), the call aborts inside the trace
read instead of transferring. -/
theorem writeRingBuff_admissibility (gen : Generator) (trace : Trace)
    (ringBuffRdPtr : Nat)
    (htrace : gen.trace = some trace)
    (houtstanding : gen.nBytesTransfered < trace.GetSize)
    (hwr : gen.ringBuffWrPtr < gen.ringBuffAddrRange + 1) :
    (¬ genAdmissible gen trace ringBuffRdPtr →
        gen.writeRingBuff ringBuffRdPtr = .ok gen 0)
    ∧ (genAdmissible gen trace ringBuffRdPtr →
        0 < genTransferSize gen trace
        ∧ ((trace.read gen.nBytesTransfered (genTransferSize gen trace)).isSome →
            ∃ gen', gen.writeRingBuff ringBuffRdPtr
              = .ok gen' (genTransferSize gen trace))
        ∧ (trace.read gen.nBytesTransfered (genTransferSize gen trace) = none →
            gen.writeRingBuff ringBuffRdPtr = .fatal)) := by
  have h := (writeRingBuff_spec gen trace ringBuffRdPtr htrace hwr).2 houtstanding
  exact ⟨h.1, fun hadm =>
    ⟨(h.2 hadm).1, fun hread => ⟨_, (h.2 hadm).2.1 hread⟩, (h.2 hadm).2.2⟩⟩

/-- Counterexample for C2 as originally stated: a generator bound to a
64-byte trace replayed 4 times (256 outstanding bytes), empty ring
(`read_ptr == write_ptr == 0`, ring size 32768) — case (a) of the claim, so
the DMA transfer should be performed — but `trace.read(0, 256)` spans three
trace wrap boundaries and panics, so the call aborts: it neither performs
the DMA transfer nor returns 0. -/
theorem writeRingBuff_tracePanic_counterexample :
    genAdmissible ⟨some ⟨List.replicate 64 0, 4⟩, 0, 32767, 0⟩ ⟨List.replicate 64 0, 4⟩ 0
    ∧ Generator.writeRingBuff ⟨some ⟨List.replicate 64 0, 4⟩, 0, 32767, 0⟩ 0
        = .fatal
    ∧ GenWriteResult.returnedBytes
        (Generator.writeRingBuff ⟨some ⟨List.replicate 64 0, 4⟩, 0, 32767, 0⟩ 0)
        = none := by
  refine ⟨by decide, by decide, by decide⟩

/-- Witness for C2 (amended): a generator bound to a 64-byte trace replayed
once, empty 32768-byte ring; the hypotheses hold and the characterization
applies. -/
theorem writeRingBuff_admissibility_witness :
    (¬ genAdmissible ⟨some ⟨List.replicate 64 0, 1⟩, 0, 32767, 0⟩
          ⟨List.replicate 64 0, 1⟩ 0 →
        Generator.writeRingBuff ⟨some ⟨List.replicate 64 0, 1⟩, 0, 32767, 0⟩ 0
          = .ok ⟨some ⟨List.replicate 64 0, 1⟩, 0, 32767, 0⟩ 0)
    ∧ (genAdmissible ⟨some ⟨List.replicate 64 0, 1⟩, 0, 32767, 0⟩
          ⟨List.replicate 64 0, 1⟩ 0 →
        0 < genTransferSize ⟨some ⟨List.replicate 64 0, 1⟩, 0, 32767, 0⟩
              ⟨List.replicate 64 0, 1⟩
        ∧ ((Trace.read ⟨List.replicate 64 0, 1⟩ 0
              (genTransferSize ⟨some ⟨List.replicate 64 0, 1⟩, 0, 32767, 0⟩
                ⟨List.replicate 64 0, 1⟩)).isSome →
            ∃ gen', Generator.writeRingBuff ⟨some ⟨List.replicate 64 0, 1⟩, 0, 32767, 0⟩ 0
              = .ok gen' (genTransferSize ⟨some ⟨List.replicate 64 0, 1⟩, 0, 32767, 0⟩
                  ⟨List.replicate 64 0, 1⟩))
        ∧ (Trace.read ⟨List.replicate 64 0, 1⟩ 0
              (genTransferSize ⟨some ⟨List.replicate 64 0, 1⟩, 0, 32767, 0⟩
                ⟨List.replicate 64 0, 1⟩) = none →
            Generator.writeRingBuff ⟨some ⟨List.replicate 64 0, 1⟩, 0, 32767, 0⟩ 0
              = .fatal)) :=
  writeRingBuff_admissibility _ _ _ rfl (by decide) (by decide)

/-! ### Claims C1/C3: receiver drain step -/

/-- Target transfer size of a drain step as the claim words it: by default
`min(R_MIN, size − read_ptr)`; with `read_all`, overridden to
`write_ptr − read_ptr` when `read_ptr < write_ptr` and to `size − read_ptr`
when `read_ptr > write_ptr`. -/
def recvTransferSize (recv : Receiver) (readAll : Bool) (ringBuffWrPtr : Nat) : Nat :=
  if readAll = true ∧ recv.ringBuffRdPtr < ringBuffWrPtr then
    ringBuffWrPtr - recv.ringBuffRdPtr
  else if readAll = true ∧ ringBuffWrPtr < recv.ringBuffRdPtr then
    recv.ringBuffAddrRange + 1 - recv.ringBuffRdPtr
  else
    min RING_BUFF_RD_TRANSFER_SIZE_MIN (recv.ringBuffAddrRange + 1 - recv.ringBuffRdPtr)

/-- Admissibility of a drain step as the claim words it:
`read_ptr != write_ptr`, and in the `read_ptr < write_ptr` case
`(write_ptr − read_ptr) ≥ transfer_size` (non-strict). -/
def recvAdmissible (recv : Receiver) (readAll : Bool) (ringBuffWrPtr : Nat) : Prop :=
  recv.ringBuffRdPtr ≠ ringBuffWrPtr
  ∧ (recv.ringBuffRdPtr < ringBuffWrPtr →
      ringBuffWrPtr - recv.ringBuffRdPtr ≥ recvTransferSize recv readAll ringBuffWrPtr)

instance recvAdmissible.dec (recv : Receiver) (readAll : Bool) (ringBuffWrPtr : Nat) :
    Decidable (recvAdmissible recv readAll ringBuffWrPtr) := by
  unfold recvAdmissible
  exact inferInstance

/-- Helper: full characterization of one `readRingBuff` step for in-ring
pointers: nothing happens when capturing is disabled or the step is
inadmissible; otherwise exactly `recvTransferSize` bytes are drained when the
capture write slice is in range, advancing the read pointer with
wrap-around, and the call aborts when the slice is out of range. -/
theorem readRingBuff_spec (recv : Receiver) (readAll : Bool) (ringBuffWrPtr : Nat)
    (hrd : recv.ringBuffRdPtr < recv.ringBuffAddrRange + 1)
    (hwr : ringBuffWrPtr < recv.ringBuffAddrRange + 1)
    (hrange : recv.ringBuffAddrRange < 2 ^ 32) :
    (recv.captureEnable = false →
        recv.readRingBuff readAll ringBuffWrPtr = .ok recv 0)
    ∧ (recv.captureEnable = true →
        (¬ recvAdmissible recv readAll ringBuffWrPtr →
            recv.readRingBuff readAll ringBuffWrPtr = .ok recv 0)
        ∧ (recvAdmissible recv readAll ringBuffWrPtr →
            0 < recvTransferSize recv readAll ringBuffWrPtr
            ∧ (∀ capture',
                recv.capture.getWriteSlice (recvTransferSize recv readAll ringBuffWrPtr)
                  = some capture' →
                recv.readRingBuff readAll ringBuffWrPtr = .ok
                  { recv with
                    capture := capture',
                    ringBuffRdPtr :=
                      if recv.ringBuffRdPtr + recvTransferSize recv readAll ringBuffWrPtr
                          = recv.ringBuffAddrRange + 1
                      then 0
                      else recv.ringBuffRdPtr + recvTransferSize recv readAll ringBuffWrPtr }
                  (recvTransferSize recv readAll ringBuffWrPtr))
            ∧ (recv.capture.getWriteSlice (recvTransferSize recv readAll ringBuffWrPtr)
                  = none →
                recv.readRingBuff readAll ringBuffWrPtr = .fatal))) := by
  have h32 : (2 : Nat) ^ 32 = 4294967296 := by norm_num
  have hRval : RING_BUFF_RD_TRANSFER_SIZE_MIN = 67108864 := by
    norm_num [RING_BUFF_RD_TRANSFER_SIZE_MIN]
  unfold Receiver.readRingBuff
  cases hen : recv.captureEnable
  · rw [if_pos rfl]
    exact ⟨fun _ => rfl, fun hc => absurd hc (by simp)⟩
  · rw [if_neg (by simp)]
    dsimp only
    refine ⟨fun hc => absurd hc (by simp), fun _ => ?_⟩
    have hts : (if readAll = true
          then (if recv.ringBuffRdPtr < ringBuffWrPtr
                then ringBuffWrPtr - recv.ringBuffRdPtr
                else if recv.ringBuffRdPtr > ringBuffWrPtr
                then (recv.ringBuffAddrRange + 1 - recv.ringBuffRdPtr) % 2 ^ 32
                else (if recv.ringBuffAddrRange + 1 - recv.ringBuffRdPtr
                        ≤ RING_BUFF_RD_TRANSFER_SIZE_MIN
                      then (recv.ringBuffAddrRange + 1 - recv.ringBuffRdPtr) % 2 ^ 32
                      else RING_BUFF_RD_TRANSFER_SIZE_MIN))
          else (if recv.ringBuffAddrRange + 1 - recv.ringBuffRdPtr
                  ≤ RING_BUFF_RD_TRANSFER_SIZE_MIN
                then (recv.ringBuffAddrRange + 1 - recv.ringBuffRdPtr) % 2 ^ 32
                else RING_BUFF_RD_TRANSFER_SIZE_MIN))
        = recvTransferSize recv readAll ringBuffWrPtr := by
      unfold recvTransferSize
      simp only [h32, hRval]
      cases readAll <;> simp <;> split_ifs <;> omega
    rw [hts]
    have hdt : (if recv.ringBuffRdPtr = ringBuffWrPtr then false
        else if recv.ringBuffRdPtr < ringBuffWrPtr
        then decide (ringBuffWrPtr - recv.ringBuffRdPtr
            ≥ recvTransferSize recv readAll ringBuffWrPtr)
        else true)
        = decide (recvAdmissible recv readAll ringBuffWrPtr) := by
      unfold recvAdmissible
      rcases Nat.lt_trichotomy recv.ringBuffRdPtr ringBuffWrPtr with hlt | heq | hgt
      · rw [if_neg (by omega), if_pos hlt, decide_eq_decide]
        constructor
        · intro h
          exact ⟨by omega, fun _ => h⟩
        · intro h
          exact h.2 hlt
      · rw [if_pos heq]
        simp [heq]
      · rw [if_neg (by omega), if_neg (by omega)]
        have : recvAdmissible recv readAll ringBuffWrPtr := by
          unfold recvAdmissible
          exact ⟨by omega, fun hc => absurd hc (by omega)⟩
        unfold recvAdmissible at this
        simp [this]
        omega
    rw [hdt]
    constructor
    · intro hnadm
      rw [decide_eq_false hnadm, if_pos rfl]
    · intro hadm
      rw [decide_eq_true hadm, if_neg (by simp)]
      have hTle : recvTransferSize recv readAll ringBuffWrPtr
          ≤ recv.ringBuffAddrRange + 1 - recv.ringBuffRdPtr := by
        unfold recvTransferSize
        split_ifs <;> omega
      have hTpos : 0 < recvTransferSize recv readAll ringBuffWrPtr := by
        obtain ⟨hne, -⟩ := hadm
        unfold recvTransferSize
        simp only [hRval]
        split_ifs <;> omega
      refine ⟨hTpos, ?_, ?_⟩
      · intro capture' hs
        rw [hs]
        dsimp only
        split_ifs with h1 h2
        · rfl
        · omega
        · rfl
      · intro hs
        rw [hs]

/-- C3 (receiver drain granule), amended: for every call to `readRingBuff`
with capture enabled and in-ring pointers, the target transfer size is
`min(R_MIN, size − read_ptr)`, overridden under `read_all` to
`write_ptr − read_ptr` (when `read_ptr < write_ptr`) or `size − read_ptr`
(when `read_ptr > write_ptr`); with `read_ptr == write_ptr` (empty) the
function returns 0; when `read_ptr != write_ptr` and, in the
`read_ptr < write_ptr` case, `(write_ptr − read_ptr) ≥ transfer_size`
(non-strict), the transfer is performed — *provided the capture write slice
is in range* (host-memory budget not exhausted; in discard mode the transfer
fits the scratch region); if the slice is out of range the call aborts
instead of transferring. -/
theorem readRingBuff_admissibility (recv : Receiver) (readAll : Bool)
    (ringBuffWrPtr : Nat)
    (hen : recv.captureEnable = true)
    (hrd : recv.ringBuffRdPtr < recv.ringBuffAddrRange + 1)
    (hwr : ringBuffWrPtr < recv.ringBuffAddrRange + 1)
    (hrange : recv.ringBuffAddrRange < 2 ^ 32) :
    (¬ recvAdmissible recv readAll ringBuffWrPtr →
        recv.readRingBuff readAll ringBuffWrPtr = .ok recv 0)
    ∧ (recvAdmissible recv readAll ringBuffWrPtr →
        0 < recvTransferSize recv readAll ringBuffWrPtr
        ∧ ((recv.capture.getWriteSlice
              (recvTransferSize recv readAll ringBuffWrPtr)).isSome →
            ∃ recv', recv.readRingBuff readAll ringBuffWrPtr
              = .ok recv' (recvTransferSize recv readAll ringBuffWrPtr))
        ∧ (recv.capture.getWriteSlice (recvTransferSize recv readAll ringBuffWrPtr)
              = none →
            recv.readRingBuff readAll ringBuffWrPtr = .fatal)) := by
  have h := (readRingBuff_spec recv readAll ringBuffWrPtr hrd hwr hrange).2 hen
  refine ⟨h.1, fun hadm => ⟨(h.2 hadm).1, ?_, (h.2 hadm).2.2⟩⟩
  intro hs
  rcases he : recv.capture.getWriteSlice (recvTransferSize recv readAll ringBuffWrPtr)
    with - | capture'
  · rw [he] at hs
    simp at hs
  · exact ⟨_, (h.2 hadm).2.1 capture' he⟩

/-- Counterexample for C3 as originally stated: an enabled receiver over a
32768-byte ring with `read_ptr = 0`, device write pointer 16384 and
`read_all` set — admissible per the claim (`read_ptr < write_ptr` and
`write_ptr − read_ptr = transfer_size`), so the transfer should be
performed — but its capture was configured with a zero-byte host-memory
budget (`SetCaptureHostMemSize(0)`, discard off), so the capture write slice
`data[0:16384]` is out of range and the call panics: it neither performs the
transfer nor returns 0. -/
theorem readRingBuff_slicePanic_counterexample :
    recvAdmissible ⟨true, ⟨[], 0, 0, false, 0, 0⟩, 32767, 0⟩ true 16384
    ∧ Receiver.readRingBuff ⟨true, ⟨[], 0, 0, false, 0, 0⟩, 32767, 0⟩ true 16384
        = .fatal
    ∧ RecvReadResult.returnedBytes
        (Receiver.readRingBuff ⟨true, ⟨[], 0, 0, false, 0, 0⟩, 32767, 0⟩ true 16384)
        = none := by
  refine ⟨by decide, by decide, by decide⟩

/-- Witness for C3 (amended): an enabled receiver with an empty ring
(`read_ptr == write_ptr == 0`); the hypotheses hold and the
characterization applies. -/
theorem readRingBuff_admissibility_witness :
    (¬ recvAdmissible ⟨true, ⟨[], 0, 0, false, 0, 0⟩, 32767, 0⟩ false 0 →
        Receiver.readRingBuff ⟨true, ⟨[], 0, 0, false, 0, 0⟩, 32767, 0⟩ false 0
          = .ok ⟨true, ⟨[], 0, 0, false, 0, 0⟩, 32767, 0⟩ 0)
    ∧ (recvAdmissible ⟨true, ⟨[], 0, 0, false, 0, 0⟩, 32767, 0⟩ false 0 →
        0 < recvTransferSize ⟨true, ⟨[], 0, 0, false, 0, 0⟩, 32767, 0⟩ false 0
        ∧ ((CaptureGo.getWriteSlice ⟨[], 0, 0, false, 0, 0⟩
              (recvTransferSize ⟨true, ⟨[], 0, 0, false, 0, 0⟩, 32767, 0⟩ false 0)).isSome →
            ∃ recv', Receiver.readRingBuff ⟨true, ⟨[], 0, 0, false, 0, 0⟩, 32767, 0⟩ false 0
              = .ok recv' (recvTransferSize ⟨true, ⟨[], 0, 0, false, 0, 0⟩, 32767, 0⟩ false 0))
        ∧ (CaptureGo.getWriteSlice ⟨[], 0, 0, false, 0, 0⟩
              (recvTransferSize ⟨true, ⟨[], 0, 0, false, 0, 0⟩, 32767, 0⟩ false 0) = none →
            Receiver.readRingBuff ⟨true, ⟨[], 0, 0, false, 0, 0⟩, 32767, 0⟩ false 0
              = .fatal)) :=
  readRingBuff_admissibility _ _ _ rfl (by decide) (by decide) (by decide)

/-- C1 (ring pointer discipline): for every generator refill step
(`writeRingBuff`) and every receiver drain step (`readRingBuff`), starting
from `write_ptr` and `read_ptr` in `[0, size)` with
`size = ringBuffAddrRange + 1` (and the configured geometry
`size > W_MAX` for a ring actually used by a generator), the overshoot panic
branch is unreachable; whenever the step returns, the host-side pointer is
again in `[0, size)`, and if the generator step transferred a nonzero number
of bytes then its new `write_ptr` differs from the `read_ptr` it observed
(the ring is then never empty, so the claim's "unless truly empty" proviso
is subsumed). -/
theorem ring_pointer_discipline
    (gen : Generator) (genRdPtr : Nat)
    (hgwr : gen.ringBuffWrPtr < gen.ringBuffAddrRange + 1)
    (hgrd : genRdPtr < gen.ringBuffAddrRange + 1)
    (hgmax : RING_BUFF_WR_TRANSFER_SIZE_MAX < gen.ringBuffAddrRange + 1)
    (recv : Receiver) (readAll : Bool) (recvWrPtr : Nat)
    (hrrd : recv.ringBuffRdPtr < recv.ringBuffAddrRange + 1)
    (hrwr : recvWrPtr < recv.ringBuffAddrRange + 1)
    (hrrange : recv.ringBuffAddrRange < 2 ^ 32) :
    (gen.writeRingBuff genRdPtr ≠ .overshoot
      ∧ ∀ gen' nBytes, gen.writeRingBuff genRdPtr = .ok gen' nBytes →
          gen'.ringBuffWrPtr < gen.ringBuffAddrRange + 1
          ∧ (0 < nBytes → gen'.ringBuffWrPtr ≠ genRdPtr))
    ∧ (recv.readRingBuff readAll recvWrPtr ≠ .overshoot
      ∧ ∀ recv' nBytes, recv.readRingBuff readAll recvWrPtr = .ok recv' nBytes →
          recv'.ringBuffRdPtr < recv.ringBuffAddrRange + 1) := by
  constructor
  · rcases htr : gen.trace with - | trace
    · have hres : gen.writeRingBuff genRdPtr = .ok gen 0 := by
        unfold Generator.writeRingBuff
        rw [htr]
      rw [hres]
      refine ⟨by simp, ?_⟩
      intro gen' nBytes hok
      cases hok
      exact ⟨hgwr, by omega⟩
    · have hspec := writeRingBuff_spec gen trace genRdPtr htr hgwr
      have htW : genTransferSize gen trace ≤ RING_BUFF_WR_TRANSFER_SIZE_MAX :=
        le_trans (min_le_left _ _) (min_le_right _ _)
      have htEnd : genTransferSize gen trace
          ≤ gen.ringBuffAddrRange + 1 - gen.ringBuffWrPtr := min_le_right _ _
      by_cases hout : trace.GetSize ≤ gen.nBytesTransfered
      · rw [hspec.1 hout]
        refine ⟨by simp, ?_⟩
        intro gen' nBytes hok
        cases hok
        exact ⟨hgwr, by omega⟩
      · have h2 := hspec.2 (by omega)
        by_cases hadm : genAdmissible gen trace genRdPtr
        · have hpos := (h2.2 hadm).1
          rcases hr : trace.read gen.nBytesTransfered (genTransferSize gen trace)
            with - | v
          · rw [(h2.2 hadm).2.2 hr]
            refine ⟨by simp, ?_⟩
            intro gen' nBytes hok
            exact absurd hok (by simp)
          · rw [(h2.2 hadm).2.1 (by rw [hr]; rfl)]
            refine ⟨by simp, ?_⟩
            intro gen' nBytes hok
            cases hok
            dsimp only
            have hne : (if gen.ringBuffWrPtr + genTransferSize gen trace
                  = gen.ringBuffAddrRange + 1
                then 0
                else gen.ringBuffWrPtr + genTransferSize gen trace) ≠ genRdPtr := by
              unfold genAdmissible at hadm
              rcases hadm with heq | ⟨hgt, hcond⟩ | ⟨hlt, hcond⟩
              · split_ifs with hw <;> omega
              · split_ifs with hw <;> omega
              · rcases not_and_or.mp hcond with hw' | hr0
                · split_ifs with hw <;> omega
                · split_ifs with hw <;> omega
            refine ⟨?_, fun _ => hne⟩
            split_ifs with hw <;> omega
        · rw [h2.1 hadm]
          refine ⟨by simp, ?_⟩
          intro gen' nBytes hok
          cases hok
          exact ⟨hgwr, by omega⟩
  · have hspec := readRingBuff_spec recv readAll recvWrPtr hrrd hrwr hrrange
    have hTle : recvTransferSize recv readAll recvWrPtr
        ≤ recv.ringBuffAddrRange + 1 - recv.ringBuffRdPtr := by
      unfold recvTransferSize
      split_ifs <;> omega
    cases hen : recv.captureEnable
    · rw [hspec.1 hen]
      refine ⟨by simp, ?_⟩
      intro recv' nBytes hok
      cases hok
      exact hrrd
    · have h2 := hspec.2 hen
      by_cases hadm : recvAdmissible recv readAll recvWrPtr
      · rcases hs : recv.capture.getWriteSlice (recvTransferSize recv readAll recvWrPtr)
          with - | capture'
        · rw [(h2.2 hadm).2.2 hs]
          refine ⟨by simp, ?_⟩
          intro recv' nBytes hok
          exact absurd hok (by simp)
        · rw [(h2.2 hadm).2.1 capture' hs]
          refine ⟨by simp, ?_⟩
          intro recv' nBytes hok
          cases hok
          dsimp only
          split_ifs with hw <;> omega
      · rw [h2.1 hadm]
        refine ⟨by simp, ?_⟩
        intro recv' nBytes hok
        cases hok
        exact hrrd

/-- Witness for C1: a generator with an empty trace slot and a receiver with
capture disabled over 256 MiB rings, both pointers 0; the hypotheses hold
and the discipline applies. -/
theorem ring_pointer_discipline_witness :
    (Generator.writeRingBuff ⟨none, 0, 268435455, 0⟩ 0 ≠ .overshoot
      ∧ ∀ gen' nBytes, Generator.writeRingBuff ⟨none, 0, 268435455, 0⟩ 0
            = .ok gen' nBytes →
          gen'.ringBuffWrPtr < (268435455 : Nat) + 1
          ∧ (0 < nBytes → gen'.ringBuffWrPtr ≠ 0))
    ∧ (Receiver.readRingBuff ⟨false, ⟨[], 0, 0, false, 0, 0⟩, 268435455, 0⟩ false 0
          ≠ .overshoot
      ∧ ∀ recv' nBytes,
          Receiver.readRingBuff ⟨false, ⟨[], 0, 0, false, 0, 0⟩, 268435455, 0⟩ false 0
            = .ok recv' nBytes →
          recv'.ringBuffRdPtr < (268435455 : Nat) + 1) :=
  ring_pointer_discipline ⟨none, 0, 268435455, 0⟩ 0 (by decide) (by decide) (by decide)
    ⟨false, ⟨[], 0, 0, false, 0, 0⟩, 268435455, 0⟩ false 0
    (by decide) (by decide) (by decide)

/-! ### Codec round-trip helpers (claims C5 and C7) -/

theorem leBytes_length (k n : Nat) : (leBytes k n).length = k := by
  induction k generalizing n with
  | zero => rfl
  | succ k ih => simp [leBytes, ih]

theorem leVal_leBytes (k n : Nat) : leVal (leBytes k n) = n % 256 ^ k := by
  induction k generalizing n with
  | zero => simp [leBytes, leVal, Nat.mod_one]
  | succ k ih =>
    rw [leBytes, leVal, ih, pow_succ, mul_comm (256 ^ k) 256, Nat.mod_mul]

theorem take_append_of_length (l1 l2 : List Nat) (n : Nat) (h : l1.length = n) :
    (l1 ++ l2).take n = l1 := by
  subst h
  exact List.take_left l1 l2

theorem drop_append_of_length (l1 l2 : List Nat) (n : Nat) (h : l1.length = n) :
    (l1 ++ l2).drop n = l2 := by
  subst h
  exact List.drop_left l1 l2

/-- Reading a 64-bit little-endian word at the start of an embedded
`leBytes 8 m` block recovers `m`. -/
theorem readU64LE_at (pre rest : List Nat) (m : Nat) (hm : m < 2 ^ 64) :
    readU64LE (pre ++ (leBytes 8 m ++ rest)) pre.length = m := by
  unfold readU64LE
  rw [drop_append_of_length pre _ _ rfl,
      take_append_of_length _ _ _ (leBytes_length 8 m),
      leVal_leBytes]
  have h : (256 : Nat) ^ 8 = 2 ^ 64 := by norm_num
  rw [h]
  exact Nat.mod_eq_of_lt hm

/-- Meta word of a well-formed packet is strictly below the sentinel. -/
theorem meta_lt_sentinel (p : PacketSpec) (hwf : p.Wf) :
    p.meta < 0xFFFFFFFFFFFFFFFF := by
  obtain ⟨h1, h2, h3, -⟩ := hwf
  unfold PacketSpec.meta
  have e24 : (2 : Nat) ^ 24 = 16777216 := by norm_num
  have e25 : (2 : Nat) ^ 25 = 33554432 := by norm_num
  have e28 : (2 : Nat) ^ 28 = 268435456 := by norm_num
  have e53 : (2 : Nat) ^ 53 = 9007199254740992 := by norm_num
  rw [e24, e25, e53]
  rw [e24] at h1
  rw [e28] at h2
  split_ifs <;> nlinarith

/-- Meta word of a well-formed packet fits in 64 bits. -/
theorem meta_lt_64 (p : PacketSpec) (hwf : p.Wf) : p.meta < 2 ^ 64 := by
  have := meta_lt_sentinel p hwf
  omega

theorem meta_latencyTicks (p : PacketSpec) (hwf : p.Wf) :
    p.meta &&& 0xFFFFFF = p.latencyTicks := by
  obtain ⟨h1, h2, h3, -⟩ := hwf
  rw [show (0xFFFFFF : Nat) = 2 ^ 24 - 1 by norm_num,
      Nat.and_pow_two_sub_one_eq_mod]
  unfold PacketSpec.meta
  have e24 : (2 : Nat) ^ 24 = 16777216 := by norm_num
  have e25 : (2 : Nat) ^ 25 = 33554432 := by norm_num
  have e53 : (2 : Nat) ^ 53 = 9007199254740992 := by norm_num
  rw [e24, e25, e53]
  rw [e24] at h1
  split_ifs <;> omega

theorem meta_hasLatency (p : PacketSpec) (hwf : p.Wf) :
    (p.meta >>> 24) &&& 0x1 = if p.hasLatency then 1 else 0 := by
  obtain ⟨h1, h2, h3, -⟩ := hwf
  rw [show (0x1 : Nat) = 2 ^ 1 - 1 by norm_num,
      Nat.and_pow_two_sub_one_eq_mod, Nat.shiftRight_eq_div_pow]
  unfold PacketSpec.meta
  have e24 : (2 : Nat) ^ 24 = 16777216 := by norm_num
  have e25 : (2 : Nat) ^ 25 = 33554432 := by norm_num
  have e28 : (2 : Nat) ^ 28 = 268435456 := by norm_num
  have e53 : (2 : Nat) ^ 53 = 9007199254740992 := by norm_num
  have e1 : (2 : Nat) ^ 1 = 2 := by norm_num
  rw [e24, e25, e53, e1]
  rw [e24] at h1
  rw [e28] at h2
  split_ifs <;> omega

theorem meta_cycles (p : PacketSpec) (hwf : p.Wf) :
    (p.meta >>> 25) &&& 0xFFFFFFF = p.cycles := by
  obtain ⟨h1, h2, h3, -⟩ := hwf
  rw [show (0xFFFFFFF : Nat) = 2 ^ 28 - 1 by norm_num,
      Nat.and_pow_two_sub_one_eq_mod, Nat.shiftRight_eq_div_pow]
  unfold PacketSpec.meta
  have e24 : (2 : Nat) ^ 24 = 16777216 := by norm_num
  have e25 : (2 : Nat) ^ 25 = 33554432 := by norm_num
  have e28 : (2 : Nat) ^ 28 = 268435456 := by norm_num
  have e53 : (2 : Nat) ^ 53 = 9007199254740992 := by norm_num
  rw [e24, e25, e53, e28]
  rw [e24] at h1
  rw [e28] at h2
  split_ifs <;> omega

theorem meta_wirelen (p : PacketSpec) (hwf : p.Wf) :
    (p.meta >>> 53) &&& 0x7FF = p.wirelen := by
  obtain ⟨h1, h2, h3, -⟩ := hwf
  rw [show (0x7FF : Nat) = 2 ^ 11 - 1 by norm_num,
      Nat.and_pow_two_sub_one_eq_mod, Nat.shiftRight_eq_div_pow]
  unfold PacketSpec.meta
  have e24 : (2 : Nat) ^ 24 = 16777216 := by norm_num
  have e25 : (2 : Nat) ^ 25 = 33554432 := by norm_num
  have e28 : (2 : Nat) ^ 28 = 268435456 := by norm_num
  have e53 : (2 : Nat) ^ 53 = 9007199254740992 := by norm_num
  have e11 : (2 : Nat) ^ 11 = 2048 := by norm_num
  rw [e24, e25, e53, e11]
  rw [e24] at h1
  rw [e28] at h2
  split_ifs <;> omega

theorem specCaplen_le_payload (maxCaplen : Nat) (p : PacketSpec) (hwf : p.Wf) :
    specCaplen maxCaplen p ≤ p.payload.length := by
  rw [hwf.2.2.2]
  exact min_le_left _ _

theorem specEncodeRecord_length (maxCaplen : Nat) (p : PacketSpec) :
    (specEncodeRecord maxCaplen p).length
      = 8 + (p.payload.take (specCaplen maxCaplen p)).length
          + (8 - specCaplen maxCaplen p % 8) % 8 := by
  simp [specEncodeRecord, leBytes_length]
  omega

/-- The next-record advance of the decoders equals the encoded record
length. -/
theorem nextPos_record (maxCaplen : Nat) (p : PacketSpec) (posRd : Nat)
    (hwf : p.Wf) :
    nextPos posRd (specCaplen maxCaplen p)
      = posRd + (specEncodeRecord maxCaplen p).length := by
  rw [specEncodeRecord_length, List.length_take,
      Nat.min_eq_left (specCaplen_le_payload maxCaplen p hwf)]
  unfold nextPos
  have h := Nat.mod_lt (specCaplen maxCaplen p) (show 0 < 8 by norm_num)
  split_ifs <;> omega

theorem specEncodeStream_length_ge (maxCaplen : Nat) (pkts : List PacketSpec) :
    8 ≤ (specEncodeStream maxCaplen pkts).length := by
  cases pkts with
  | nil => simp [specEncodeStream, leBytes_length]
  | cons p ps =>
    simp only [specEncodeStream, List.length_append, specEncodeRecord_length]
    omega

/-- Helper: capture.go's decode loop decodes an embedded well-formed
encoded stream, record by record. -/
theorem goLoop_decodes (maxCaplen : Nat) (tick : ℚ) (pkts : List PacketSpec) :
    ∀ (pre : List Nat) (c : CaptureGo),
      (∀ p ∈ pkts, p.Wf) →
      c.data = pre ++ specEncodeStream maxCaplen pkts →
      c.posWr = c.data.length →
      c.maxLenCapture = maxCaplen →
      c.tickPeriodLatency = tick →
      c.getPacketsLoop pre.length = some (pkts.map (specDecodedGo maxCaplen tick)) := by
  induction pkts with
  | nil =>
    intro pre c _ hdata hposWr hmax htick
    have hlen : c.data.length = pre.length + 8 := by
      rw [hdata]
      simp [specEncodeStream, leBytes_length]
    have hm : readU64LE c.data pre.length = 0xFFFFFFFFFFFFFFFF := by
      have hsh : c.data = pre ++ (leBytes 8 0xFFFFFFFFFFFFFFFF ++ []) := by
        rw [hdata]
        simp [specEncodeStream]
      rw [hsh]
      exact readU64LE_at _ _ _ (by norm_num)
    rw [CaptureGo.getPacketsLoop]
    dsimp only
    rw [hm, if_pos (by omega), if_pos rfl]
    simp
  | cons p ps ih =>
    intro pre c hwf hdata hposWr hmax htick
    have hwfp : p.Wf := hwf p (List.mem_cons_self p ps)
    have hwfps : ∀ q ∈ ps, q.Wf := fun q hq => hwf q (List.mem_cons_of_mem p hq)
    have hcaple : specCaplen maxCaplen p ≤ p.payload.length :=
      specCaplen_le_payload maxCaplen p hwfp
    have hreclen : (specEncodeRecord maxCaplen p).length
        = 8 + specCaplen maxCaplen p + (8 - specCaplen maxCaplen p % 8) % 8 := by
      rw [specEncodeRecord_length, List.length_take, Nat.min_eq_left hcaple]
    have hstream8 := specEncodeStream_length_ge maxCaplen ps
    have hlen : c.data.length = pre.length + ((specEncodeRecord maxCaplen p).length
        + (specEncodeStream maxCaplen ps).length) := by
      rw [hdata]
      simp [specEncodeStream]
    have hshape : c.data = pre ++ (leBytes 8 p.meta
        ++ ((p.payload.take (specCaplen maxCaplen p)
              ++ List.replicate ((8 - specCaplen maxCaplen p % 8) % 8) 0)
            ++ specEncodeStream maxCaplen ps)) := by
      rw [hdata]
      simp [specEncodeStream, specEncodeRecord, List.append_assoc]
    have hm : readU64LE c.data pre.length = p.meta := by
      rw [hshape]
      exact readU64LE_at _ _ _ (meta_lt_64 p hwfp)
    rw [CaptureGo.getPacketsLoop]
    dsimp only
    rw [hm]
    rw [if_pos (show pre.length + 8 ≤ c.data.length by omega)]
    rw [if_neg (show ¬ p.meta = 0xFFFFFFFFFFFFFFFF by
      have := meta_lt_sentinel p hwfp
      omega)]
    rw [meta_wirelen p hwfp, meta_cycles p hwfp, meta_latencyTicks p hwfp,
        meta_hasLatency p hwfp, hmax]
    have hlc : (if p.wirelen > maxCaplen then maxCaplen else p.wirelen)
        = specCaplen maxCaplen p := by
      unfold specCaplen
      split_ifs <;> omega
    rw [hlc]
    rw [if_pos (show pre.length + 8 + specCaplen maxCaplen p ≤ c.data.length by omega)]
    have hdata2 : c.data = (pre ++ leBytes 8 p.meta)
        ++ (p.payload.take (specCaplen maxCaplen p)
            ++ (List.replicate ((8 - specCaplen maxCaplen p % 8) % 8) 0
                ++ specEncodeStream maxCaplen ps)) := by
      rw [hdata]
      simp [specEncodeStream, specEncodeRecord, List.append_assoc]
    have hdrop : c.data.drop (pre.length + 8)
        = p.payload.take (specCaplen maxCaplen p)
          ++ (List.replicate ((8 - specCaplen maxCaplen p % 8) % 8) 0
              ++ specEncodeStream maxCaplen ps) := by
      rw [hdata2]
      exact drop_append_of_length _ _ _ (by simp [leBytes_length])
    have htake : (c.data.drop (pre.length + 8)).take (specCaplen maxCaplen p)
        = p.payload.take (specCaplen maxCaplen p) := by
      rw [hdrop]
      exact take_append_of_length _ _ _
        (by rw [List.length_take]; exact Nat.min_eq_left hcaple)
    rw [htake]
    have hnext : nextPos pre.length (specCaplen maxCaplen p)
        = (pre ++ specEncodeRecord maxCaplen p).length := by
      rw [nextPos_record maxCaplen p pre.length hwfp]
      simp
    rw [hnext]
    rw [dif_pos (show (pre ++ specEncodeRecord maxCaplen p).length < c.posWr by
      rw [hposWr]
      simp only [List.length_append]
      omega)]
    have hih := ih (pre ++ specEncodeRecord maxCaplen p) c hwfps
      (by rw [hdata]; simp [specEncodeStream, List.append_assoc]) hposWr hmax htick
    rw [hih]
    cases hb : p.hasLatency <;> simp [specDecodedGo, htick, hb]

/-- Helper: part_002's decode loop decodes an embedded well-formed encoded
stream, record by record, applying the latency correction. -/
theorem v2Loop_decodes (latencyErrCorrectionCycles maxCaplen : Nat) (tick : ℚ)
    (pkts : List PacketSpec) :
    ∀ (pre : List Nat) (c : CaptureV2),
      (∀ p ∈ pkts, p.Wf) →
      c.data = pre ++ specEncodeStream maxCaplen pkts →
      c.wrPtr = c.data.length →
      c.caplen = maxCaplen →
      c.tickPeriodLatency = tick →
      CaptureV2.getPacketsLoop latencyErrCorrectionCycles c pre.length
        = some (pkts.map (specDecodedV2 latencyErrCorrectionCycles maxCaplen tick)) := by
  induction pkts with
  | nil =>
    intro pre c _ hdata hwrPtr hmax htick
    have hlen : c.data.length = pre.length + 8 := by
      rw [hdata]
      simp [specEncodeStream, leBytes_length]
    have hm : readU64LE c.data pre.length = 0xFFFFFFFFFFFFFFFF := by
      have hsh : c.data = pre ++ (leBytes 8 0xFFFFFFFFFFFFFFFF ++ []) := by
        rw [hdata]
        simp [specEncodeStream]
      rw [hsh]
      exact readU64LE_at _ _ _ (by norm_num)
    rw [CaptureV2.getPacketsLoop]
    dsimp only
    rw [hm, dif_pos (show pre.length < c.wrPtr by omega), if_pos (by omega), if_pos rfl]
    simp
  | cons p ps ih =>
    intro pre c hwf hdata hwrPtr hmax htick
    have hwfp : p.Wf := hwf p (List.mem_cons_self p ps)
    have hwfps : ∀ q ∈ ps, q.Wf := fun q hq => hwf q (List.mem_cons_of_mem p hq)
    have hcaple : specCaplen maxCaplen p ≤ p.payload.length :=
      specCaplen_le_payload maxCaplen p hwfp
    have hreclen : (specEncodeRecord maxCaplen p).length
        = 8 + specCaplen maxCaplen p + (8 - specCaplen maxCaplen p % 8) % 8 := by
      rw [specEncodeRecord_length, List.length_take, Nat.min_eq_left hcaple]
    have hstream8 := specEncodeStream_length_ge maxCaplen ps
    have hlen : c.data.length = pre.length + ((specEncodeRecord maxCaplen p).length
        + (specEncodeStream maxCaplen ps).length) := by
      rw [hdata]
      simp [specEncodeStream]
    have hshape : c.data = pre ++ (leBytes 8 p.meta
        ++ ((p.payload.take (specCaplen maxCaplen p)
              ++ List.replicate ((8 - specCaplen maxCaplen p % 8) % 8) 0)
            ++ specEncodeStream maxCaplen ps)) := by
      rw [hdata]
      simp [specEncodeStream, specEncodeRecord, List.append_assoc]
    have hm : readU64LE c.data pre.length = p.meta := by
      rw [hshape]
      exact readU64LE_at _ _ _ (meta_lt_64 p hwfp)
    rw [CaptureV2.getPacketsLoop]
    dsimp only
    rw [hm]
    rw [dif_pos (show pre.length < c.wrPtr by rw [hwrPtr]; omega)]
    rw [if_pos (show pre.length + 8 ≤ c.data.length by omega)]
    rw [if_neg (show ¬ p.meta = 0xFFFFFFFFFFFFFFFF by
      have := meta_lt_sentinel p hwfp
      omega)]
    rw [meta_wirelen p hwfp, meta_cycles p hwfp, meta_latencyTicks p hwfp,
        meta_hasLatency p hwfp, hmax]
    have hlc : (if p.wirelen > maxCaplen then maxCaplen else p.wirelen)
        = specCaplen maxCaplen p := by
      unfold specCaplen
      split_ifs <;> omega
    rw [hlc]
    rw [if_pos (show pre.length + 8 + specCaplen maxCaplen p ≤ c.data.length by omega)]
    have hdata2 : c.data = (pre ++ leBytes 8 p.meta)
        ++ (p.payload.take (specCaplen maxCaplen p)
            ++ (List.replicate ((8 - specCaplen maxCaplen p % 8) % 8) 0
                ++ specEncodeStream maxCaplen ps)) := by
      rw [hdata]
      simp [specEncodeStream, specEncodeRecord, List.append_assoc]
    have hdrop : c.data.drop (pre.length + 8)
        = p.payload.take (specCaplen maxCaplen p)
          ++ (List.replicate ((8 - specCaplen maxCaplen p % 8) % 8) 0
              ++ specEncodeStream maxCaplen ps) := by
      rw [hdata2]
      exact drop_append_of_length _ _ _ (by simp [leBytes_length])
    have htake : (c.data.drop (pre.length + 8)).take (specCaplen maxCaplen p)
        = p.payload.take (specCaplen maxCaplen p) := by
      rw [hdrop]
      exact take_append_of_length _ _ _
        (by rw [List.length_take]; exact Nat.min_eq_left hcaple)
    rw [htake]
    have hnext : nextPos pre.length (specCaplen maxCaplen p)
        = (pre ++ specEncodeRecord maxCaplen p).length := by
      rw [nextPos_record maxCaplen p pre.length hwfp]
      simp
    rw [hnext]
    have hih := ih (pre ++ specEncodeRecord maxCaplen p) c hwfps
      (by rw [hdata]; simp [specEncodeStream, List.append_assoc]) hwrPtr hmax htick
    rw [hih]
    cases hb : p.hasLatency <;> simp [specDecodedV2, htick, hb]

instance PacketSpec.Wf.dec (p : PacketSpec) : Decidable p.Wf := by
  unfold PacketSpec.Wf
  exact inferInstance

/-- C5 (capture codec round-trip): for every finite sequence of well-formed
packets encoded per the §4.4 wire layout (little-endian u64 meta with latency
ticks in bits 0..23, has_latency in bit 24, inter-arrival cycles in bits
25..52, wire length in bits 53..63, `caplen = min(wirelen, max_caplen)`
payload bytes zero-padded to 8-byte alignment) into a buffer terminated by
the sentinel word `0xFFFFFFFFFFFFFFFF`, `GetPackets` — in both the
capture.go and the part_002 implementation — decodes exactly that sequence:
arrival time `cycles / F_SFP`, latency presence, wire length, and payload
truncated to `min(wire_len, max_caplen)`; the next-record offset advance
`8 + caplen` when `caplen % 8 == 0` and `16 + caplen − caplen % 8` otherwise
equals the encoded record length (`nextPos_record`), which the round trip
traverses record by record. -/
theorem capture_codec_roundtrip (maxCaplen latencyErrCorrectionCycles : Nat)
    (tick : ℚ) (pkts : List PacketSpec) (hwf : ∀ p ∈ pkts, p.Wf) :
    CaptureGo.GetPackets
        ⟨specEncodeStream maxCaplen pkts, (specEncodeStream maxCaplen pkts).length,
          (specEncodeStream maxCaplen pkts).length, false, tick, maxCaplen⟩
      = .ok (pkts.map (specDecodedGo maxCaplen tick))
    ∧ CaptureV2.GetPackets latencyErrCorrectionCycles
        ⟨specEncodeStream maxCaplen pkts, (specEncodeStream maxCaplen pkts).length,
          tick, maxCaplen, false⟩
      = some (pkts.map (specDecodedV2 latencyErrCorrectionCycles maxCaplen tick)) := by
  constructor
  · unfold CaptureGo.GetPackets
    rw [if_neg (by simp)]
    have h := goLoop_decodes maxCaplen tick pkts []
      ⟨specEncodeStream maxCaplen pkts, (specEncodeStream maxCaplen pkts).length,
        (specEncodeStream maxCaplen pkts).length, false, tick, maxCaplen⟩
      hwf (by simp) rfl rfl rfl
    simp only [List.length_nil] at h
    rw [h]
  · unfold CaptureV2.GetPackets
    have h := v2Loop_decodes latencyErrCorrectionCycles maxCaplen tick pkts []
      ⟨specEncodeStream maxCaplen pkts, (specEncodeStream maxCaplen pkts).length,
        tick, maxCaplen, false⟩
      hwf (by simp) rfl rfl rfl
    simp only [List.length_nil] at h
    rw [h]

/-- Witness for C5: two concrete packets (wire lengths 60 and 9, a latency
tag on the first, `max_caplen = 8`) encode and decode exactly. -/
theorem capture_codec_roundtrip_witness :
    CaptureGo.GetPackets
        ⟨specEncodeStream 8 [⟨7, true, 100, 60, List.replicate 60 3⟩,
            ⟨0, false, 5, 9, List.replicate 9 4⟩],
          (specEncodeStream 8 [⟨7, true, 100, 60, List.replicate 60 3⟩,
            ⟨0, false, 5, 9, List.replicate 9 4⟩]).length,
          (specEncodeStream 8 [⟨7, true, 100, 60, List.replicate 60 3⟩,
            ⟨0, false, 5, 9, List.replicate 9 4⟩]).length, false, 1, 8⟩
      = .ok ([⟨7, true, 100, 60, List.replicate 60 3⟩,
          ⟨0, false, 5, 9, List.replicate 9 4⟩].map (specDecodedGo 8 1))
    ∧ CaptureV2.GetPackets 4
        ⟨specEncodeStream 8 [⟨7, true, 100, 60, List.replicate 60 3⟩,
            ⟨0, false, 5, 9, List.replicate 9 4⟩],
          (specEncodeStream 8 [⟨7, true, 100, 60, List.replicate 60 3⟩,
            ⟨0, false, 5, 9, List.replicate 9 4⟩]).length, 1, 8, false⟩
      = some ([⟨7, true, 100, 60, List.replicate 60 3⟩,
          ⟨0, false, 5, 9, List.replicate 9 4⟩].map (specDecodedV2 4 8 1)) :=
  capture_codec_roundtrip 8 4 1
    [⟨7, true, 100, 60, List.replicate 60 3⟩, ⟨0, false, 5, 9, List.replicate 9 4⟩]
    (by decide)

/-- C7 (latency postcondition): for every decoded packet of part_002's
`GetPackets` whose has_latency bit is set, the reported latency equals the
24-bit latency tick count multiplied by the capture's tick period
(`cycles_per_tick / F_SFP`), minus the correction term
`LATENCY_ERR_CORRECTION_CYCLES / F_SFP`; packets without the has_latency bit
report latency 0.  (`LATENCY_ERR_CORRECTION_CYCLES` is not defined under
src/ and is modelled from the spec as the parameter
`latencyErrCorrectionCycles`; capture.go's duplicate decoder omits the
subtraction.) -/
theorem latency_postcondition (latencyErrCorrectionCycles maxCaplen : Nat)
    (ts : timestamp) (pkts : List PacketSpec) (hwf : ∀ p ∈ pkts, p.Wf) :
    CaptureV2.GetPackets latencyErrCorrectionCycles
        ⟨specEncodeStream maxCaplen pkts, (specEncodeStream maxCaplen pkts).length,
          ts.getTickPeriod, maxCaplen, false⟩
      = some (pkts.map
          (specDecodedV2 latencyErrCorrectionCycles maxCaplen ts.getTickPeriod))
    ∧ (∀ p : PacketSpec,
        (specDecodedV2 latencyErrCorrectionCycles maxCaplen ts.getTickPeriod p).HasLatency
          = p.hasLatency
        ∧ (p.hasLatency = true →
            (specDecodedV2 latencyErrCorrectionCycles maxCaplen ts.getTickPeriod p).Latency
              = (p.latencyTicks : ℚ) * ((ts.cyclesPerTick : ℚ) / FREQ_SFP)
                - (latencyErrCorrectionCycles : ℚ) / FREQ_SFP)
        ∧ (p.hasLatency = false →
            (specDecodedV2 latencyErrCorrectionCycles maxCaplen
              ts.getTickPeriod p).Latency = 0)) := by
  constructor
  · unfold CaptureV2.GetPackets
    have h := v2Loop_decodes latencyErrCorrectionCycles maxCaplen ts.getTickPeriod pkts []
      ⟨specEncodeStream maxCaplen pkts, (specEncodeStream maxCaplen pkts).length,
        ts.getTickPeriod, maxCaplen, false⟩
      hwf (by simp) rfl rfl rfl
    simp only [List.length_nil] at h
    rw [h]
  · intro p
    refine ⟨rfl, ?_, ?_⟩ <;> intro hb <;>
      simp [specDecodedV2, timestamp.getTickPeriod, hb]

/-- Witness for C7: a single concrete latency-tagged packet decoded with
tick period from `cyclesPerTick = 2` and correction constant 4. -/
theorem latency_postcondition_witness :
    (CaptureV2.GetPackets 4
        ⟨specEncodeStream 16 [⟨9, true, 50, 60, List.replicate 60 7⟩],
          (specEncodeStream 16 [⟨9, true, 50, 60, List.replicate 60 7⟩]).length,
          timestamp.getTickPeriod ⟨2, 0, 0, 0⟩, 16, false⟩
      = some ([⟨9, true, 50, 60, List.replicate 60 7⟩].map
          (specDecodedV2 4 16 (timestamp.getTickPeriod ⟨2, 0, 0, 0⟩))))
    ∧ (∀ p : PacketSpec,
        (specDecodedV2 4 16 (timestamp.getTickPeriod ⟨2, 0, 0, 0⟩) p).HasLatency
          = p.hasLatency
        ∧ (p.hasLatency = true →
            (specDecodedV2 4 16 (timestamp.getTickPeriod ⟨2, 0, 0, 0⟩) p).Latency
              = (p.latencyTicks : ℚ) * (((2 : Int) : ℚ) / FREQ_SFP)
                - ((4 : Nat) : ℚ) / FREQ_SFP)
        ∧ (p.hasLatency = false →
            (specDecodedV2 4 16 (timestamp.getTickPeriod ⟨2, 0, 0, 0⟩) p).Latency = 0)) :=
  latency_postcondition 4 16 ⟨2, 0, 0, 0⟩ [⟨9, true, 50, 60, List.replicate 60 7⟩]
    (by decide)

/-- Witness for C8: a discard-mode capture errors on `GetPackets`. -/
theorem getPackets_discard_prohibition_witness :
    ((CaptureGo.GetPackets ⟨[], 0, 0, true, 0, 0⟩ = .discardErr)
      ↔ (⟨[], 0, 0, true, 0, 0⟩ : CaptureGo).discard = true)
    ∧ (captureCreate 0 0 0 true).GetPackets = .discardErr :=
  getPackets_discard_prohibition ⟨[], 0, 0, true, 0, 0⟩ 0 0 0

/-- Witness for C10: the setter on the default timestamp core rejects the
Disabled mode and accepts no mode value 0. -/
theorem setMode_rejects_disabled_witness :
    ((timestamp.setMode ⟨1, 0, 0, 0⟩ 0).isSome
      ↔ ((0 : Int) = TimestampModeFixedPos ∨ (0 : Int) = TimestampModeHeader))
    ∧ ((NetworkTester.SetTimestampMode ⟨⟨1, 0, 0, 0⟩⟩ 0).isSome
      ↔ ((0 : Int) = TimestampModeFixedPos ∨ (0 : Int) = TimestampModeHeader))
    ∧ timestamp.setMode ⟨1, 0, 0, 0⟩ TimestampModeDisabled = none
    ∧ NetworkTesterCreate_timestamp.mode = TimestampModeDisabled :=
  setMode_rejects_disabled ⟨1, 0, 0, 0⟩ ⟨⟨1, 0, 0, 0⟩⟩ 0

end Gofluent10g
